import Mathlib

/-!
Verification development for the FinDIT camera-RAW CLI bridges
(braw-tool and r3d-tool).

The definitions below are shallow embeddings of the arithmetic and the
control flow of `src/tools/braw-tool/main.cpp` and
`src/tools/r3d-tool/main.cpp`.  Machine floating point is modelled by
exact rationals together with a correct round-to-nearest-even operator
`rnd p` (p = 53 for IEEE binary64, p = 24 for binary32; the exponent is
unbounded, which is exact on the value ranges the tools use, where
neither overflow nor subnormals can occur).  Machine integer casts and
wrap-around are modelled explicitly.  Vendor-SDK calls are modelled as
oracles: records of the status codes and data the SDK returns, consumed
in program order.
-/

namespace FinDIT

/-! ## Floating-point rounding model -/

/-- Fuel-driven floor of log2 on naturals.  `natLog2 n` computes
`Nat.log2 n` by structural recursion on a fuel argument so that kernel
evaluation (`decide`) works. -/
def natLog2Aux : ℕ → ℕ → ℕ
  | 0, _ => 0
  | fuel + 1, n => if n ≤ 1 then 0 else natLog2Aux fuel (n / 2) + 1

def natLog2 (n : ℕ) : ℕ := natLog2Aux n n

/-- Floor of log2 of a positive rational, as an integer. -/
def ratLog2 (q : ℚ) : ℤ :=
  if q < (2 : ℚ) ^ ((natLog2 q.num.toNat : ℤ) - (natLog2 q.den : ℤ)) then
    (natLog2 q.num.toNat : ℤ) - (natLog2 q.den : ℤ) - 1
  else if q < (2 : ℚ) ^ ((natLog2 q.num.toNat : ℤ) - (natLog2 q.den : ℤ) + 1) then
    (natLog2 q.num.toNat : ℤ) - (natLog2 q.den : ℤ)
  else (natLog2 q.num.toNat : ℤ) - (natLog2 q.den : ℤ) + 1

/-- Round a rational to the nearest integer, ties to even. -/
def roundNE (x : ℚ) : ℤ :=
  if x - ⌊x⌋ < 1 / 2 then ⌊x⌋
  else if 1 / 2 < x - ⌊x⌋ then ⌊x⌋ + 1
  else if ⌊x⌋ % 2 = 0 then ⌊x⌋ else ⌊x⌋ + 1

/-- Correctly rounded (round to nearest, ties to even) p-bit binary
floating-point value of a rational; the exponent range is unbounded.
p = 53 models IEEE binary64 (C double), p = 24 models binary32 (C float). -/
def rnd (p : ℕ) (q : ℚ) : ℚ :=
  if q = 0 then 0
  else
    (if q < 0 then (-1 : ℚ) else 1) *
      (roundNE (|q| * (2 : ℚ) ^ ((p : ℤ) - 1 - ratLog2 |q|)) : ℚ) *
      (2 : ℚ) ^ (-((p : ℤ) - 1 - ratLog2 |q|))

/-- C cast of a nonnegative double to an integer type: truncation toward
zero (the tools only cast nonnegative values here). -/
def truncQ (q : ℚ) : ℤ := if 0 ≤ q then ⌊q⌋ else -⌊-q⌋

/-! ## JPEG target-size computation (WriteJPEG / writeBGRAasJPEG) -/

/-- Rounding a value up to the next even number: models `(n + 1) & ~1u`
(braw-tool) and `(n + 1) & ~(size_t)1` (r3d-tool); the `& ~1` clears the
low bit, so an odd n becomes n + 1 and an even n stays n.  Exact as long
as n + 1 does not overflow the word, which holds for all reachable n. -/
def evenUp (n : ℕ) : ℕ := if n % 2 = 0 then n else n + 1

/-- Target-dimension computation of braw-tool WriteJPEG
(src/tools/braw-tool/main.cpp:138-151).  srcW, srcH are the uint32_t
source dimensions, maxDim the int maxDim parameter.  The comparison
`shortEdge > (uint32_t)maxDim` is taken under the guard maxDim > 0, so
the cast is value-preserving (`maxDim.toNat`).  The two double
operations — the division `(double)maxDim / shortEdge` and each
multiplication `srcW * scale` — are modelled by `rnd 53`; the
int → double and uint32_t → double operand conversions are exact
because both types fit in 53 bits.  The final `(uint32_t)` casts
truncate toward zero (`truncQ`). -/
def brawDstDims (srcW srcH : ℕ) (maxDim : ℤ) : ℕ × ℕ :=
  let shortEdge := min srcW srcH
  if 0 < maxDim ∧ maxDim.toNat < shortEdge then
    let scale := rnd 53 ((maxDim : ℚ) / (shortEdge : ℚ))
    (evenUp (truncQ (rnd 53 ((srcW : ℚ) * scale))).toNat,
     evenUp (truncQ (rnd 53 ((srcH : ℚ) * scale))).toNat)
  else (srcW, srcH)

/-- C cast of a size_t value to 32-bit signed int, as two's-complement
truncation (the behaviour of clang on the target platform). -/
def int32cast (n : ℕ) : ℤ :=
  if n % 2 ^ 32 < 2 ^ 31 then ((n % 2 ^ 32 : ℕ) : ℤ)
  else ((n % 2 ^ 32 : ℕ) : ℤ) - 2 ^ 32

/-- Target-dimension computation of r3d-tool writeBGRAasJPEG
(src/tools/r3d-tool/main.cpp:67-77).  width, height are size_t values;
the comparison is `(int)shortEdge > maxDim`, so the short edge goes
through a 32-bit signed truncation first.  The size_t → double
conversions of width, height and shortEdge are modelled by `rnd 53`
(inexact above 2^53); the int → double conversion of maxDim is exact. -/
def r3dDstDims (width height : ℕ) (maxDim : ℤ) : ℕ × ℕ :=
  let shortEdge := min width height
  if 0 < maxDim ∧ maxDim < int32cast shortEdge then
    let scale := rnd 53 ((maxDim : ℚ) / rnd 53 ((shortEdge : ℚ)))
    (evenUp (truncQ (rnd 53 (rnd 53 ((width : ℚ)) * scale))).toNat,
     evenUp (truncQ (rnd 53 (rnd 53 ((height : ℚ)) * scale))).toNat)
  else (width, height)

/-- The target-dimension formula exactly as claim C1 states it: exact
rational arithmetic floor(src * maxDim / shortEdge), rounded up to the
next even number; no resize otherwise.  This definition follows the
spec wording and is compared against the code embeddings. -/
def specDstDims (srcW srcH : ℕ) (maxDim : ℤ) : ℕ × ℕ :=
  if 0 < maxDim ∧ maxDim.toNat < min srcW srcH then
    (evenUp (srcW * maxDim.toNat / min srcW srcH),
     evenUp (srcH * maxDim.toNat / min srcW srcH))
  else (srcW, srcH)

/-- Sequential clamping of a decoded float sample, modelling
`if (s > 1.0f) s = 1.0f; if (s < -1.0f) s = -1.0f;`
(src/tools/r3d-tool/main.cpp:397-398). -/
def clampSeq (s : ℚ) : ℚ :=
  let s1 := if 1 < s then 1 else s
  if s1 < -1 then -1 else s1

/-- Float path of r3d-tool's audio conversion
(src/tools/r3d-tool/main.cpp:394-399): the decoded binary32 sample
(as an exact rational) is clamped, multiplied by 32767.0f in binary32
arithmetic (`rnd 24`), and cast to int16_t, which truncates toward
zero. -/
def r3dFloatToPCM (s : ℚ) : ℤ := truncQ (rnd 24 (clampSeq s * 32767))

/-- Two's-complement reinterpretation of a value as int16_t. -/
def toInt16 (n : ℕ) : ℤ :=
  if n % 2 ^ 16 < 2 ^ 15 then ((n % 2 ^ 16 : ℕ) : ℤ)
  else ((n % 2 ^ 16 : ℕ) : ℤ) - 2 ^ 16

/-- Integer path of r3d-tool's audio conversion
(src/tools/r3d-tool/main.cpp:403-408): `out16[i] = (int16_t)((p[0] << 8) | p[1])`
on the first two bytes of the 32-bit big-endian sample; for b1 < 256 the
bitwise or of the disjoint ranges is the sum b0 * 2^8 + b1. -/
def r3dIntToPCM (b0 b1 : ℕ) : ℤ := toInt16 (b0 * 2 ^ 8 + b1)

/-! ## Timestamp JSON parsing (ParseTimesJSON / inline parser) -/

/-- C locale isspace characters, as skipped by strtod. -/
def isSpaceC (c : Char) : Bool :=
  c == ' ' || c == '\t' || c == '\n' || c == '\r' ||
    c == Char.ofNat 11 || c == Char.ofNat 12

def isDigitC (c : Char) : Bool := 48 ≤ c.toNat && c.toNat ≤ 57

def digitVal (c : Char) : ℕ := c.toNat - 48

/-- Consume a run of decimal digits, returning the accumulated value,
the digit count and the remaining input. -/
def parseDigitsAux : ℕ → ℕ → List Char → ℕ × ℕ × List Char
  | acc, cnt, [] => (acc, cnt, [])
  | acc, cnt, c :: r =>
    if isDigitC c then parseDigitsAux (acc * 10 + digitVal c) (cnt + 1) r
    else (acc, cnt, c :: r)

/-- Modelled from the spec: both tools call the C library function
strtod, which is not part of this repository.  This models its decimal
grammar — optional sign, digits with optional fraction, optional
exponent with at least one digit (otherwise the e is not consumed) —
after an isspace prefix.  Hex floats, inf and nan are outside the
grammar the tools feed it.  The value is kept as the exact rational
(built with mkRat; real strtod rounds it to the nearest double, which
no control flow in either tool depends on).  Returns the value and the
remaining input (the end pointer), or none when no conversion is
performed. -/
def strtodBody (l : List Char) : Option (ℚ × List Char) :=
  let sgnl : ℤ × List Char :=
    match l with
    | '-' :: r => (-1, r)
    | '+' :: r => (1, r)
    | _ => (1, l)
  match parseDigitsAux 0 0 sgnl.2 with
  | (ip, icnt, l3) =>
    match
      (match l3 with
       | '.' :: r => parseDigitsAux 0 0 r
       | _ => (0, 0, l3)) with
    | (fp, fcnt, l4) =>
      if icnt + fcnt = 0 then none
      else
        let exr : ℤ × List Char :=
          match l4 with
          | c :: r =>
            if c == 'e' || c == 'E' then
              match r with
              | '-' :: r2 =>
                match parseDigitsAux 0 0 r2 with
                | (ev, ecnt, r3) => if ecnt = 0 then (0, l4) else (-(ev : ℤ), r3)
              | '+' :: r2 =>
                match parseDigitsAux 0 0 r2 with
                | (ev, ecnt, r3) => if ecnt = 0 then (0, l4) else ((ev : ℤ), r3)
              | _ =>
                match parseDigitsAux 0 0 r with
                | (ev, ecnt, r3) => if ecnt = 0 then (0, l4) else ((ev : ℤ), r3)
            else (0, l4)
          | [] => (0, l4)
        let mantNum : ℤ := sgnl.1 * (ip * 10 ^ fcnt + fp)
        let v : ℚ :=
          if 0 ≤ exr.1 then mkRat (mantNum * 10 ^ exr.1.toNat) (10 ^ fcnt)
          else mkRat mantNum (10 ^ fcnt * 10 ^ (-exr.1).toNat)
        some (v, exr.2)

def strtodM (l : List Char) : Option (ℚ × List Char) :=
  strtodBody (l.dropWhile isSpaceC)

/-- Skip to the first character after the opening bracket:
`while (*p && *p != '[') p++; if (*p == '[') p++;` — this preamble is
textually identical in braw-tool's ParseTimesJSON
(src/tools/braw-tool/main.cpp:366-368) and r3d-tool's inline parser
(src/tools/r3d-tool/main.cpp:258-260). -/
def jsonAfterBracket (l : List Char) : List Char :=
  match l.dropWhile (fun c => !(c == '[')) with
  | '[' :: r => r
  | l0 => l0

/-- Separators skipped by braw-tool's loop: `*p == ' ' || *p == ','`. -/
def sepB (c : Char) : Bool := c == ' ' || c == ','

/-- Separators skipped by r3d-tool's loop:
`*p == ' ' || *p == ',' || *p == '\n'`. -/
def sepR (c : Char) : Bool := c == ' ' || c == ',' || c == '\n'

/-- Loop of braw-tool's ParseTimesJSON (src/tools/braw-tool/main.cpp:370-386).
On a failed strtod it advances one character and continues; the returned
Bool records whether that recovery branch was ever taken (true = never).
The fuel argument only bounds the iteration count; every iteration
consumes at least one character, so `length + 1` fuel is never
exhausted. -/
def brawLoop : ℕ → List Char → List ℚ × Bool
  | 0, _ => ([], true)
  | fuel + 1, l =>
    match l.dropWhile sepB with
    | [] => ([], true)
    | c :: r =>
      if c == ']' then ([], true)
      else
        match strtodM (c :: r) with
        | some (v, rest) =>
          let p := brawLoop fuel rest
          (v :: p.1, p.2)
        | none =>
          let p := brawLoop fuel r
          (p.1, false)

/-- Loop of r3d-tool's inline parser (src/tools/r3d-tool/main.cpp:261-269).
On a failed strtod it stops (`if (end == p) break;`). -/
def r3dLoop : ℕ → List Char → List ℚ
  | 0, _ => []
  | fuel + 1, l =>
    match l.dropWhile sepR with
    | [] => []
    | c :: r =>
      if c == ']' then []
      else
        match strtodM (c :: r) with
        | some (v, rest) => v :: r3dLoop fuel rest
        | none => []

def brawParseTimesF (s : String) : List ℚ × Bool :=
  brawLoop ((jsonAfterBracket s.toList).length + 1) (jsonAfterBracket s.toList)

def brawParseTimes (s : String) : List ℚ := (brawParseTimesF s).1

def r3dParseTimes (s : String) : List ℚ :=
  r3dLoop ((jsonAfterBracket s.toList).length + 1) (jsonAfterBracket s.toList)

/-! ## extract-frames (CmdExtractFrames / cmd_extract_frames) -/

/-- `%04zu` formatting of the frame index: zero-padded to at least four
digits. -/
def pad4 (i : ℕ) : List Char :=
  let s := (Nat.repr i).toList
  List.replicate (4 - s.length) '0' ++ s

/-- The per-frame output path `<outputDir>/frame_XXXX.jpg` built by both
tools with snprintf. -/
def framePath (dir : List Char) (i : ℕ) : List Char :=
  dir ++ ("/frame_".toList) ++ pad4 i ++ (".jpg".toList)

/-- The piece printed for one frame: the quoted path on success, the
literal null on failure. -/
def frameItem (exitFor : ℕ → ℕ) (dir : List Char) (k : ℕ) : List Char :=
  if exitFor k = 0 then '"' :: (framePath dir k ++ ['"']) else ("null".toList)

/-- The stdout produced by the extraction loop shared in shape by
braw-tool (src/tools/braw-tool/main.cpp:423-437) and r3d-tool
(src/tools/r3d-tool/main.cpp:282-293): per element, extraction runs,
then `if (i > 0) printf(",")`, then the quoted path or null.  The
per-index exit code abstracts ExtractOneFrame / decodeFrame. -/
def framesLoopOut (exitFor : ℕ → ℕ) (dir : List Char) : List ℚ → ℕ → List Char
  | [], _ => []
  | _ :: ts, i =>
    ((if 0 < i then [','] else []) ++ frameItem exitFor dir i)
      ++ framesLoopOut exitFor dir ts (i + 1)

/-- SDK outcome of one braw ExtractOneFrame attempt
(src/tools/braw-tool/main.cpp:283-323): SetCallback, CreateJobReadFrame,
Submit, and the decode-and-write pipeline observed by the callback. -/
structure FrameAttempt where
  setCallbackOk : Bool
  createJobOk : Bool
  submitOk : Bool
  decodeOk : Bool

/-- Exit code of braw-tool's ExtractOneFrame: 1 as soon as one of its
SDK calls fails, otherwise 0. -/
def extractOneFrameExit (a : FrameAttempt) : ℕ :=
  if !a.setCallbackOk then 1
  else if !a.createJobOk then 1
  else if !a.submitOk then 1
  else if !a.decodeOk then 1
  else 0

/-- SDK oracle of a braw CmdExtractFrames run. -/
structure BrawFramesSdk where
  factoryOk : Bool
  codecOk : Bool
  openOk : Bool
  attempts : ℕ → FrameAttempt

/-- braw-tool CmdExtractFrames (src/tools/braw-tool/main.cpp:390-446):
returns the exit code and the stdout characters.  ret is set to 1 only
by the times-empty check and the factory/codec/open failures; per-frame
failures print null but leave ret at 0. -/
def cmdExtractFramesBraw (sdk : BrawFramesSdk) (timesJson : String)
    (outputDir : List Char) : ℕ × List Char :=
  let times := brawParseTimes timesJson
  if times = [] then (1, [])
  else if !sdk.factoryOk then (1, [])
  else if !sdk.codecOk then (1, [])
  else if !sdk.openOk then (1, [])
  else
    (0, '[' :: (framesLoopOut (fun i => extractOneFrameExit (sdk.attempts i))
          outputDir times 0 ++ ("]\n".toList)))

/-- SDK outcome of one r3d decodeFrame attempt
(src/tools/r3d-tool/main.cpp:181-232): buffer allocation,
DecodeVideoFrame, and the JPEG write. -/
structure R3dFrameAttempt where
  allocOk : Bool
  decodeOk : Bool
  writeOk : Bool

/-- Exit code of r3d-tool's decodeFrame. -/
def decodeFrameExit (a : R3dFrameAttempt) : ℕ :=
  if !a.allocOk then 1
  else if !a.decodeOk then 1
  else if !a.writeOk then 1
  else 0

/-- SDK oracle of an r3d cmd_extract_frames run. -/
structure R3dFramesSdk where
  loadOk : Bool
  attempts : ℕ → R3dFrameAttempt

/-- r3d-tool cmd_extract_frames (src/tools/r3d-tool/main.cpp:254-298):
parse, load, loop; the final return is 0 regardless of per-frame decode
results. -/
def cmdExtractFramesR3d (sdk : R3dFramesSdk) (timesJson : String)
    (outputDir : List Char) : ℕ × List Char :=
  let times := r3dParseTimes timesJson
  if times = [] then (1, [])
  else if !sdk.loadOk then (1, [])
  else
    (0, '[' :: (framesLoopOut (fun i => decodeFrameExit (sdk.attempts i))
          outputDir times 0 ++ ("]\n".toList)))

/-- The stdout the claim describes: a JSON array with exactly one
element per requested time, in order, each the quoted i-th frame path
or null. -/
def expectedFramesJson (exitFor : ℕ → ℕ) (dir : List Char) (n : ℕ) : List Char :=
  '[' :: (List.intercalate (",".toList)
      ((List.range n).map (frameItem exitFor dir)) ++ ("]\n".toList))

/-! ## extract-frame (CmdExtractFrame / cmd_extract_frame) -/

/-- SDK oracle of a braw CmdExtractFrame run
(src/tools/braw-tool/main.cpp:327-358). -/
structure BrawFrameSdk where
  factoryOk : Bool
  codecOk : Bool
  openOk : Bool
  attempt : FrameAttempt

def cmdExtractFrameBraw (sdk : BrawFrameSdk) : ℕ :=
  if !sdk.factoryOk then 1
  else if !sdk.codecOk then 1
  else if !sdk.openOk then 1
  else extractOneFrameExit sdk.attempt

/-- SDK oracle of an r3d cmd_extract_frame run
(src/tools/r3d-tool/main.cpp:238-248). -/
structure R3dFrameSdk where
  loadOk : Bool
  attempt : R3dFrameAttempt

def cmdExtractFrameR3d (sdk : R3dFrameSdk) : ℕ :=
  if !sdk.loadOk then 1 else decodeFrameExit sdk.attempt

/-! ## probe (CmdProbe / cmd_probe) -/

/-- SDK oracle of a braw CmdProbe run (src/tools/braw-tool/main.cpp:227-279). -/
structure BrawProbeSdk where
  factoryOk : Bool
  codecOk : Bool
  openOk : Bool
  width : ℕ
  height : ℕ
  fps : ℚ
  frameCount : ℕ
  audioOk : Bool
  audioChannels : ℕ
  audioSampleRate : ℕ
  audioBitDepth : ℕ

/-- The values braw CmdProbe prints in its JSON object (the printf at
src/tools/braw-tool/main.cpp:268-273; string rendering is not
modelled). -/
structure BrawProbeOut where
  width : ℕ
  height : ℕ
  fps : ℚ
  frameCount : ℕ
  duration : ℚ
  hasAudio : Bool
  audioChannels : ℕ
  audioSampleRate : ℕ
  audioBitDepth : ℕ

/-- braw CmdProbe.  The audio fields stay 0 / false when the
QueryInterface for the audio interface fails.  The duration division is
modelled in exact rational arithmetic. -/
def cmdProbeBraw (sdk : BrawProbeSdk) : ℕ × Option BrawProbeOut :=
  if !sdk.factoryOk then (1, none)
  else if !sdk.codecOk then (1, none)
  else if !sdk.openOk then (1, none)
  else
    let ac := if sdk.audioOk then sdk.audioChannels else 0
    (0, some
      { width := sdk.width, height := sdk.height, fps := sdk.fps,
        frameCount := sdk.frameCount,
        duration := if 0 < sdk.fps then (sdk.frameCount : ℚ) / sdk.fps else 0,
        hasAudio := if sdk.audioOk then decide (0 < sdk.audioChannels) else false,
        audioChannels := ac,
        audioSampleRate := if sdk.audioOk then sdk.audioSampleRate else 0,
        audioBitDepth := if sdk.audioOk then sdk.audioBitDepth else 0 })

/-- SDK oracle of an r3d cmd_probe run (src/tools/r3d-tool/main.cpp:145-175). -/
structure R3dProbeSdk where
  loadOk : Bool
  width : ℕ
  height : ℕ
  fps : ℚ
  frameCount : ℕ
  audioChannels : ℕ
  srMeta : ℕ

/-- The values r3d cmd_probe prints (printf at
src/tools/r3d-tool/main.cpp:166-171; codec and camera strings are not
modelled). -/
structure R3dProbeOut where
  width : ℕ
  height : ℕ
  fps : ℚ
  frameCount : ℕ
  duration : ℚ
  audioChannels : ℕ
  audioSampleRate : ℕ

def cmdProbeR3d (sdk : R3dProbeSdk) : ℕ × Option R3dProbeOut :=
  if !sdk.loadOk then (1, none)
  else
    let sr0 := if 0 < sdk.audioChannels then sdk.srMeta else 0
    (0, some
      { width := sdk.width, height := sdk.height, fps := sdk.fps,
        frameCount := sdk.frameCount,
        duration := if 0 < sdk.fps then (sdk.frameCount : ℚ) / sdk.fps else 0,
        audioChannels := sdk.audioChannels,
        audioSampleRate := if 0 < sdk.audioChannels ∧ sr0 = 0 then 48000 else sr0 })

/-! ## extract-audio (CmdExtractAudio / cmd_extract_audio) -/

/-- The braw WavHeader fields (src/tools/braw-tool/main.cpp:451-466);
the four constant tag strings are omitted. -/
structure WavHeaderB where
  wavContentSize : ℕ
  fmtChunkSize : ℕ
  audioFormat : ℕ
  channelCount : ℕ
  sampleRate : ℕ
  bytesPerSecond : ℕ
  blockAlign : ℕ
  bitDepth : ℕ
  dataBytes : ℕ

/-- SDK oracle of a braw CmdExtractAudio run
(src/tools/braw-tool/main.cpp:471-564): the setup results, the audio
properties, and the outcome of the k-th GetAudioSamples call as
(hr == S_OK, samplesRead, bytesRead). -/
structure BrawAudioSdk where
  factoryOk : Bool
  codecOk : Bool
  openOk : Bool
  audioOk : Bool
  sampleCount : ℕ
  bitDepth : ℕ
  channelCount : ℕ
  sampleRate : ℕ
  fopenOk : Bool
  reads : ℕ → Bool × ℕ × ℕ

/-- The chunked GetAudioSamples loop
(src/tools/braw-tool/main.cpp:536-546): returns the payload bytes
written after the header.  Every iteration advances sampleIndex by at
least one, so sampleCount fuel is never exhausted. -/
def brawAudioLoop (sdk : BrawAudioSdk) : ℕ → ℕ → ℕ → ℕ
  | 0, _, _ => 0
  | fuel + 1, sampleIndex, k =>
    if sampleIndex < sdk.sampleCount then
      match sdk.reads k with
      | (ok, samplesRead, bytesRead) =>
        if !ok || samplesRead == 0 then 0
        else bytesRead + brawAudioLoop sdk fuel (sampleIndex + samplesRead) (k + 1)
    else 0

/-- braw CmdExtractAudio: exit code, header written up front (with the
predicted dataBytes), and payload bytes actually written.  The header is
written once before the loop and never updated; the loop breaking early
does not change ret, which is 0 from the moment the setup succeeded.
uint64/uint32/uint16 arithmetic is modelled with explicit mod. -/
def cmdExtractAudioBraw (sdk : BrawAudioSdk) : ℕ × Option WavHeaderB × ℕ :=
  if !sdk.factoryOk then (1, none, 0)
  else if !sdk.codecOk then (1, none, 0)
  else if !sdk.openOk then (1, none, 0)
  else if !sdk.audioOk then (1, none, 0)
  else if sdk.sampleCount = 0 ∨ sdk.channelCount = 0 then (1, none, 0)
  else
    let dataBytes := sdk.sampleCount * sdk.channelCount % 2 ^ 64 * sdk.bitDepth % 2 ^ 64 / 8
    let hdr : WavHeaderB :=
      { wavContentSize := (36 + dataBytes % 2 ^ 32) % 2 ^ 32,
        fmtChunkSize := 16,
        audioFormat := 1,
        channelCount := sdk.channelCount % 2 ^ 16,
        sampleRate := sdk.sampleRate,
        bytesPerSecond := sdk.sampleRate * sdk.channelCount % 2 ^ 32 * sdk.bitDepth % 2 ^ 32 / 8,
        blockAlign := sdk.channelCount * sdk.bitDepth % 2 ^ 32 / 8 % 2 ^ 16,
        bitDepth := sdk.bitDepth % 2 ^ 16,
        dataBytes := dataBytes % 2 ^ 32 }
    if !sdk.fopenOk then (1, none, 0)
    else (0, some hdr, brawAudioLoop sdk sdk.sampleCount 0 0)

/-- The r3d WAVHeader fields (src/tools/r3d-tool/main.cpp:305-319);
constant tags omitted. -/
structure WavHeaderR where
  fileSize : ℕ
  fmtSize : ℕ
  audioFmt : ℕ
  channels : ℕ
  sampleRate : ℕ
  byteRate : ℕ
  blockAlign : ℕ
  bitsPerSamp : ℕ
  dataSize : ℕ

/-- SDK oracle of an r3d cmd_extract_audio run
(src/tools/r3d-tool/main.cpp:326-427).  The decode oracle covers both
DecodeFloatAudio and DecodeAudio (chosen by the audio-format metadata,
which does not influence the header or the byte counts). -/
structure R3dAudioSdk where
  loadOk : Bool
  channels : ℕ
  srMeta : ℕ
  totalSamples : ℕ
  fopenOk : Bool
  allocOk : Bool
  decodes : ℕ → Bool × ℕ

/-- The r3d decode loop (src/tools/r3d-tool/main.cpp:376-415): returns
(payload bytes written, final value of the uint32 dataBytes counter). -/
def r3dAudioLoop (sdk : R3dAudioSdk) : ℕ → ℕ → ℕ → ℕ × ℕ
  | 0, _, _ => (0, 0)
  | fuel + 1, decoded, k =>
    if decoded < sdk.totalSamples then
      match sdk.decodes k with
      | (ok, got) =>
        if !ok || got == 0 then (0, 0)
        else
          let wb := got * sdk.channels * 2
          let rest := r3dAudioLoop sdk fuel (decoded + got) (k + 1)
          (wb + rest.1, (wb % 2 ^ 32 + rest.2) % 2 ^ 32)
    else (0, 0)

/-- r3d cmd_extract_audio: exit code, the header as rewritten at the end
of the run (src/tools/r3d-tool/main.cpp:417-421), and the payload bytes
written after the header. -/
def cmdExtractAudioR3d (sdk : R3dAudioSdk) : ℕ × Option WavHeaderR × ℕ :=
  if !sdk.loadOk then (1, none, 0)
  else if sdk.channels = 0 then (1, none, 0)
  else
    let sr := if sdk.srMeta = 0 then 48000 else sdk.srMeta
    if !sdk.fopenOk then (1, none, 0)
    else if !sdk.allocOk then (1, none, 0)
    else
      let res := r3dAudioLoop sdk sdk.totalSamples 0 0
      let blockAlign := sdk.channels * 2 % 2 ^ 16
      let hdr : WavHeaderR :=
        { fileSize := (36 + res.2) % 2 ^ 32,
          fmtSize := 16,
          audioFmt := 1,
          channels := sdk.channels % 2 ^ 16,
          sampleRate := sr,
          byteRate := sr * blockAlign % 2 ^ 32,
          blockAlign := blockAlign,
          bitsPerSamp := 16,
          dataSize := res.2 }
      (0, some hdr, res.1)

/-- Oracle for the C7 witness: a clip that opens with 24 fps and 48
frames. -/
def c7BrawSdk : BrawProbeSdk :=
  { factoryOk := true, codecOk := true, openOk := true, width := 1920, height := 1080,
    fps := 24, frameCount := 48, audioOk := true, audioChannels := 2,
    audioSampleRate := 48000, audioBitDepth := 24 }

def c7R3dSdk : R3dProbeSdk :=
  { loadOk := true, width := 4096, height := 2160, fps := 24, frameCount := 240,
    audioChannels := 2, srMeta := 48000 }

/-! ## Frame index computation (ExtractOneFrame / decodeFrame) -/

/-- braw-tool's frame index (src/tools/braw-tool/main.cpp:286-292):
`(uint64_t)(timeSec * fps)` then clamp.  The cast is modelled by truncQ
(defined behaviour requires a nonnegative product, which the theorems
assume). -/
def brawFrameIndex (fps timeSec : ℚ) (frameCount : ℕ) : ℕ :=
  let frameIndex := (truncQ (timeSec * fps)).toNat
  if 0 < frameCount ∧ frameCount ≤ frameIndex then frameCount - 1 else frameIndex

/-- r3d-tool's frame index (src/tools/r3d-tool/main.cpp:188-191):
`(fps > 0 && timeSec > 0) ? (size_t)(timeSec * fps) : 0` then clamp. -/
def r3dFrameIndex (fps timeSec : ℚ) (totalFrames : ℕ) : ℕ :=
  let frameNo := if 0 < fps ∧ 0 < timeSec then (truncQ (timeSec * fps)).toNat else 0
  if totalFrames ≤ frameNo ∧ 0 < totalFrames then totalFrames - 1 else frameNo

/-- Oracles for the C6 witness: both tools open the clip; extraction
succeeds for frame 0 and fails for every later frame. -/
def c6OkSdkB : BrawFramesSdk :=
  { factoryOk := true, codecOk := true, openOk := true,
    attempts := fun i =>
      { setCallbackOk := true, createJobOk := true, submitOk := true,
        decodeOk := decide (i = 0) } }

def c6OkSdkR : R3dFramesSdk :=
  { loadOk := true,
    attempts := fun i =>
      { allocOk := true, decodeOk := decide (i = 0), writeOk := true } }

/-- Oracle for the C6 counterexample: the braw clip fails to open. -/
def c6FailSdkB : BrawFramesSdk :=
  { factoryOk := true, codecOk := true, openOk := false,
    attempts := fun _ =>
      { setCallbackOk := true, createJobOk := true, submitOk := true, decodeOk := true } }

/-- Oracle for the C4 counterexample: r3d clip loads, but every
per-frame DecodeVideoFrame fails. -/
def c4FailFramesSdkR : R3dFramesSdk :=
  { loadOk := true,
    attempts := fun _ => { allocOk := true, decodeOk := false, writeOk := true } }

/-- Oracle for the C4 counterexample: braw audio setup succeeds, the
first GetAudioSamples succeeds, the second fails. -/
def c4FailAudioSdkB : BrawAudioSdk :=
  { factoryOk := true, codecOk := true, openOk := true, audioOk := true,
    sampleCount := 2, bitDepth := 16, channelCount := 1, sampleRate := 48000,
    fopenOk := true,
    reads := fun k => if k = 0 then (true, 1, 2) else (false, 0, 0) }

/-- Oracle for the C3 counterexample: braw audio setup succeeds, the
first GetAudioSamples run returns 1 sample / 2 bytes, the second
fails. -/
def c3BadSdk : BrawAudioSdk :=
  { factoryOk := true, codecOk := true, openOk := true, audioOk := true,
    sampleCount := 2, bitDepth := 16, channelCount := 1, sampleRate := 48000,
    fopenOk := true,
    reads := fun k => if k = 0 then (true, 1, 2) else (false, 0, 0) }

/-- Oracles for the C3 witness: every read / decode succeeds. -/
def c3GoodSdkB : BrawAudioSdk :=
  { factoryOk := true, codecOk := true, openOk := true, audioOk := true,
    sampleCount := 2, bitDepth := 16, channelCount := 1, sampleRate := 48000,
    fopenOk := true, reads := fun _ => (true, 1, 2) }

def c3GoodSdkR : R3dAudioSdk :=
  { loadOk := true, channels := 2, srMeta := 48000, totalSamples := 2,
    fopenOk := true, allocOk := true, decodes := fun _ => (true, 1) }

lemma natLog2Aux_bracket :
    ∀ fuel n, 1 ≤ n → n ≤ fuel →
      2 ^ natLog2Aux fuel n ≤ n ∧ n < 2 ^ (natLog2Aux fuel n + 1) := by
  intro fuel
  induction fuel with
  | zero => intro n h1 h2; omega
  | succ fuel ih =>
    intro n h1 h2
    by_cases h : n ≤ 1
    · have hn1 : n = 1 := by omega
      subst hn1
      simp [natLog2Aux]
    · have hrec := ih (n / 2) (by omega) (by omega)
      simp only [natLog2Aux, if_neg h]
      have e1 : 2 ^ (natLog2Aux fuel (n / 2) + 1) = 2 ^ natLog2Aux fuel (n / 2) * 2 :=
        pow_succ 2 _
      have e2 : 2 ^ (natLog2Aux fuel (n / 2) + 1 + 1) = 2 ^ (natLog2Aux fuel (n / 2) + 1) * 2 :=
        pow_succ 2 _
      omega

lemma natLog2_bracket (n : ℕ) (h : 1 ≤ n) :
    2 ^ natLog2 n ≤ n ∧ n < 2 ^ (natLog2 n + 1) :=
  natLog2Aux_bracket n n h le_rfl

lemma bracketChoice (q : ℚ) (L0 : ℤ)
    (key1 : (2 : ℚ) ^ (L0 - 1) < q) (key2 : q < (2 : ℚ) ^ (L0 + 1)) :
    (2 : ℚ) ^ (if q < (2 : ℚ) ^ L0 then L0 - 1 else
      if q < (2 : ℚ) ^ (L0 + 1) then L0 else L0 + 1) ≤ q ∧
    q < (2 : ℚ) ^ ((if q < (2 : ℚ) ^ L0 then L0 - 1 else
      if q < (2 : ℚ) ^ (L0 + 1) then L0 else L0 + 1) + 1) := by
  by_cases h1 : q < (2 : ℚ) ^ L0
  · simp only [if_pos h1]
    refine ⟨key1.le, ?_⟩
    have h : L0 - 1 + 1 = L0 := by ring
    rw [h]
    exact h1
  · simp only [if_neg h1]
    by_cases h2 : q < (2 : ℚ) ^ (L0 + 1)
    · simp only [if_pos h2]
      exact ⟨not_lt.mp h1, h2⟩
    · exact absurd key2 h2

lemma ratLog2_bracket (q : ℚ) (hq : 0 < q) :
    (2 : ℚ) ^ ratLog2 q ≤ q ∧ q < (2 : ℚ) ^ (ratLog2 q + 1) := by
  have hnum : 0 < q.num := Rat.num_pos.mpr hq
  have hn1 : 1 ≤ q.num.toNat := by omega
  have hd1 : 1 ≤ q.den := q.den_pos
  obtain ⟨ha1, ha2⟩ := natLog2_bracket q.num.toNat hn1
  obtain ⟨hb1, hb2⟩ := natLog2_bracket q.den hd1
  have hdpos : (0 : ℚ) < (q.den : ℚ) := by exact_mod_cast hd1
  have hqnd : q = (q.num.toNat : ℚ) / (q.den : ℚ) := by
    have h1 : ((q.num.toNat : ℕ) : ℚ) = (q.num : ℚ) := by
      exact_mod_cast Int.toNat_of_nonneg hnum.le
    rw [h1, Rat.num_div_den]
  set a := natLog2 q.num.toNat with hadef
  set b := natLog2 q.den with hbdef
  have hA1 : (2 : ℚ) ^ (a : ℤ) ≤ (q.num.toNat : ℚ) := by
    rw [zpow_natCast]
    exact_mod_cast ha1
  have hA2 : (q.num.toNat : ℚ) < (2 : ℚ) ^ ((a : ℤ) + 1) := by
    rw [show ((a : ℤ) + 1) = ((a + 1 : ℕ) : ℤ) by push_cast; ring, zpow_natCast]
    exact_mod_cast ha2
  have hB1 : (2 : ℚ) ^ (b : ℤ) ≤ (q.den : ℚ) := by
    rw [zpow_natCast]
    exact_mod_cast hb1
  have hB2 : (q.den : ℚ) < (2 : ℚ) ^ ((b : ℤ) + 1) := by
    rw [show ((b : ℤ) + 1) = ((b + 1 : ℕ) : ℤ) by push_cast; ring, zpow_natCast]
    exact_mod_cast hb2
  have h2pos : ∀ e : ℤ, (0 : ℚ) < (2 : ℚ) ^ e := fun e => zpow_pos (by norm_num) e
  -- lower estimate: 2 ^ (a - b - 1) < q
  have key1 : (2 : ℚ) ^ ((a : ℤ) - (b : ℤ) - 1) < q := by
    have hsplit : (2 : ℚ) ^ ((a : ℤ) - (b : ℤ) - 1)
        = (2 : ℚ) ^ (a : ℤ) / (2 : ℚ) ^ ((b : ℤ) + 1) := by
      rw [← zpow_sub₀ (two_ne_zero : (2 : ℚ) ≠ 0)]
      congr 1
      ring
    rw [hsplit, hqnd]
    calc (2 : ℚ) ^ (a : ℤ) / (2 : ℚ) ^ ((b : ℤ) + 1)
        < (2 : ℚ) ^ (a : ℤ) / (q.den : ℚ) :=
          div_lt_div_of_pos_left (h2pos _) hdpos hB2
      _ ≤ (q.num.toNat : ℚ) / (q.den : ℚ) := by
          gcongr
  -- upper estimate: q < 2 ^ (a - b + 1)
  have key2 : q < (2 : ℚ) ^ ((a : ℤ) - (b : ℤ) + 1) := by
    have hsplit : (2 : ℚ) ^ ((a : ℤ) - (b : ℤ) + 1)
        = (2 : ℚ) ^ ((a : ℤ) + 1) / (2 : ℚ) ^ (b : ℤ) := by
      rw [← zpow_sub₀ (two_ne_zero : (2 : ℚ) ≠ 0)]
      congr 1
      ring
    rw [hsplit, hqnd]
    calc (q.num.toNat : ℚ) / (q.den : ℚ)
        ≤ (q.num.toNat : ℚ) / (2 : ℚ) ^ (b : ℤ) := by
          apply div_le_div_of_nonneg_left (by positivity) (h2pos _) hB1
      _ < (2 : ℚ) ^ ((a : ℤ) + 1) / (2 : ℚ) ^ (b : ℤ) :=
          div_lt_div_of_pos_right hA2 (h2pos _)
  unfold ratLog2
  exact bracketChoice q ((a : ℤ) - (b : ℤ)) key1 key2

lemma roundNE_err (x : ℚ) : |(roundNE x : ℚ) - x| ≤ 1 / 2 := by
  have h0 : (⌊x⌋ : ℚ) ≤ x := Int.floor_le x
  have h1 : x < ⌊x⌋ + 1 := Int.lt_floor_add_one x
  unfold roundNE
  split_ifs with ha hb hc <;> rw [abs_le] <;> constructor <;> push_cast <;> linarith

lemma roundNE_intCast (m : ℤ) : roundNE (m : ℚ) = m := by
  unfold roundNE
  rw [Int.floor_intCast]
  norm_num

lemma rnd_err (p : ℕ) (q : ℚ) (hq : 0 < q) :
    |rnd p q - q| ≤ q * (2 : ℚ) ^ (-(p : ℤ)) := by
  have hq0 : q ≠ 0 := ne_of_gt hq
  have habs : |q| = q := abs_of_pos hq
  unfold rnd
  rw [if_neg hq0, if_neg (not_lt.mpr hq.le), habs]
  set L := ratLog2 q with hL
  set e : ℤ := (p : ℤ) - 1 - L with he
  obtain ⟨hbr1, _⟩ := ratLog2_bracket q hq
  have h2e : (0 : ℚ) < (2 : ℚ) ^ e := zpow_pos (by norm_num) _
  have h2e' : (0 : ℚ) < (2 : ℚ) ^ (-e) := zpow_pos (by norm_num) _
  have hcancel : (2 : ℚ) ^ e * (2 : ℚ) ^ (-e) = 1 := by
    rw [← zpow_add₀ (two_ne_zero : (2 : ℚ) ≠ 0)]
    simp
  have hid : (1 : ℚ) * (roundNE (q * (2 : ℚ) ^ e) : ℚ) * (2 : ℚ) ^ (-e) - q
      = ((roundNE (q * (2 : ℚ) ^ e) : ℚ) - q * (2 : ℚ) ^ e) * (2 : ℚ) ^ (-e) := by
    have hexp : ((roundNE (q * (2 : ℚ) ^ e) : ℚ) - q * (2 : ℚ) ^ e) * (2 : ℚ) ^ (-e)
        = (roundNE (q * (2 : ℚ) ^ e) : ℚ) * (2 : ℚ) ^ (-e)
          - q * ((2 : ℚ) ^ e * (2 : ℚ) ^ (-e)) := by ring
    rw [hexp, hcancel]
    ring
  rw [hid, abs_mul, abs_of_pos h2e']
  have hstep : |(roundNE (q * (2 : ℚ) ^ e) : ℚ) - q * (2 : ℚ) ^ e| * (2 : ℚ) ^ (-e)
      ≤ (1 / 2) * (2 : ℚ) ^ (-e) :=
    mul_le_mul_of_nonneg_right (roundNE_err _) h2e'.le
  refine hstep.trans ?_
  have hkey : (1 / 2 : ℚ) * (2 : ℚ) ^ (-e) = (2 : ℚ) ^ L * (2 : ℚ) ^ (-(p : ℤ)) := by
    have hhalf : (1 / 2 : ℚ) = (2 : ℚ) ^ (-1 : ℤ) := by norm_num
    rw [hhalf, ← zpow_add₀ (two_ne_zero : (2 : ℚ) ≠ 0),
      ← zpow_add₀ (two_ne_zero : (2 : ℚ) ≠ 0)]
    congr 1
    rw [he]
    ring
  rw [hkey]
  exact mul_le_mul_of_nonneg_right hbr1 (zpow_pos (by norm_num) _).le

lemma rnd_le (p : ℕ) (q : ℚ) (hq : 0 < q) :
    rnd p q ≤ q * (1 + (2 : ℚ) ^ (-(p : ℤ))) := by
  have h := rnd_err p q hq
  rw [abs_le] at h
  nlinarith [h.2]

lemma le_rnd (p : ℕ) (q : ℚ) (hq : 0 < q) :
    q * (1 - (2 : ℚ) ^ (-(p : ℤ))) ≤ rnd p q := by
  have h := rnd_err p q hq
  rw [abs_le] at h
  nlinarith [h.1]

lemma two_zpow_neg_le_one (p : ℕ) : (2 : ℚ) ^ (-(p : ℤ)) ≤ 1 := by
  have h : (-(p : ℤ)) ≤ 0 := by omega
  calc (2 : ℚ) ^ (-(p : ℤ)) ≤ (2 : ℚ) ^ (0 : ℤ) := zpow_le_zpow_right₀ one_le_two h
    _ = 1 := by norm_num

lemma rnd_nonneg (p : ℕ) (q : ℚ) (hq : 0 ≤ q) : 0 ≤ rnd p q := by
  rcases eq_or_lt_of_le hq with h | h
  · rw [← h]
    simp [rnd]
  · have h1 := le_rnd p q h
    have h2 := two_zpow_neg_le_one p
    nlinarith

lemma rnd_natCast (p : ℕ) (n : ℕ) (hn : n < 2 ^ p) : rnd p (n : ℚ) = n := by
  rcases Nat.eq_zero_or_pos n with h | h
  · subst h
    simp [rnd]
  have hq : (0 : ℚ) < (n : ℚ) := by exact_mod_cast h
  obtain ⟨hbr1, _⟩ := ratLog2_bracket (n : ℚ) hq
  have habs : |(n : ℚ)| = (n : ℚ) := abs_of_pos hq
  set L := ratLog2 (n : ℚ) with hLdef
  have hLlt : L < (p : ℤ) := by
    by_contra hcon
    push_neg at hcon
    have hmono : (2 : ℚ) ^ ((p : ℤ)) ≤ (2 : ℚ) ^ L := zpow_le_zpow_right₀ one_le_two hcon
    have hn2 : (n : ℚ) < (2 : ℚ) ^ ((p : ℤ)) := by
      rw [zpow_natCast]
      exact_mod_cast hn
    linarith
  set e : ℤ := (p : ℤ) - 1 - L with hedef
  have he0 : 0 ≤ e := by omega
  have hsplit : (2 : ℚ) ^ (e.toNat : ℕ) = (2 : ℚ) ^ e := by
    rw [← zpow_natCast, Int.toNat_of_nonneg he0]
  have hint : (n : ℚ) * (2 : ℚ) ^ e = (((n * 2 ^ e.toNat : ℕ) : ℤ) : ℚ) := by
    rw [← hsplit]
    push_cast
    ring
  unfold rnd
  rw [if_neg (ne_of_gt hq), if_neg (not_lt.mpr hq.le), habs, ← hLdef, ← hedef, hint,
    roundNE_intCast]
  push_cast
  rw [hsplit]
  have hcancel : (2 : ℚ) ^ e * (2 : ℚ) ^ (-e) = 1 := by
    rw [← zpow_add₀ (two_ne_zero : (2 : ℚ) ≠ 0)]
    simp
  calc (1 : ℚ) * ((n : ℚ) * (2 : ℚ) ^ e) * (2 : ℚ) ^ (-e)
      = (n : ℚ) * ((2 : ℚ) ^ e * (2 : ℚ) ^ (-e)) := by ring
    _ = n := by rw [hcancel]; ring

lemma ratLog2_unique (q : ℚ) (hq : 0 < q) (L : ℤ)
    (h1 : (2 : ℚ) ^ L ≤ q) (h2 : q < (2 : ℚ) ^ (L + 1)) : ratLog2 q = L := by
  obtain ⟨hb1, hb2⟩ := ratLog2_bracket q hq
  by_contra hne
  rcases lt_or_gt_of_ne hne with hlt | hgt
  · have hmono : (2 : ℚ) ^ (ratLog2 q + 1) ≤ (2 : ℚ) ^ L :=
      zpow_le_zpow_right₀ one_le_two (by omega)
    linarith
  · have hmono : (2 : ℚ) ^ (L + 1) ≤ (2 : ℚ) ^ ratLog2 q :=
      zpow_le_zpow_right₀ one_le_two (by omega)
    linarith

lemma roundNE_eq_down (x : ℚ) (f : ℤ) (h1 : (f : ℚ) ≤ x) (h2 : x - f < 1 / 2) :
    roundNE x = f := by
  have hfl : ⌊x⌋ = f := by
    rw [Int.floor_eq_iff]
    refine ⟨h1, ?_⟩
    linarith
  unfold roundNE
  rw [hfl, if_pos h2]

lemma roundNE_eq_up (x : ℚ) (f : ℤ) (h1 : (f : ℚ) ≤ x) (h2 : 1 / 2 < x - f)
    (h3 : x < f + 1) : roundNE x = f + 1 := by
  have hfl : ⌊x⌋ = f := by
    rw [Int.floor_eq_iff]
    refine ⟨h1, ?_⟩
    linarith
  unfold roundNE
  rw [hfl, if_neg (by linarith), if_pos h2]

lemma rnd_eval (p : ℕ) (q : ℚ) (L m : ℤ) (hq : 0 < q)
    (hbr1 : (2 : ℚ) ^ L ≤ q) (hbr2 : q < (2 : ℚ) ^ (L + 1))
    (hm : roundNE (q * (2 : ℚ) ^ ((p : ℤ) - 1 - L)) = m) :
    rnd p q = (m : ℚ) * (2 : ℚ) ^ (L + 1 - (p : ℤ)) := by
  unfold rnd
  rw [if_neg (ne_of_gt hq), if_neg (not_lt.mpr hq.le), abs_of_pos hq,
    ratLog2_unique q hq L hbr1 hbr2, hm]
  have hexp : -((p : ℤ) - 1 - L) = L + 1 - (p : ℤ) := by ring
  rw [hexp]
  ring

lemma rnd_eval_down (p : ℕ) (q : ℚ) (L f : ℤ) (hq : 0 < q)
    (hbr1 : (2 : ℚ) ^ L ≤ q) (hbr2 : q < (2 : ℚ) ^ (L + 1))
    (hf1 : (f : ℚ) ≤ q * (2 : ℚ) ^ ((p : ℤ) - 1 - L))
    (hf2 : q * (2 : ℚ) ^ ((p : ℤ) - 1 - L) - f < 1 / 2) :
    rnd p q = (f : ℚ) * (2 : ℚ) ^ (L + 1 - (p : ℤ)) :=
  rnd_eval p q L f hq hbr1 hbr2 (roundNE_eq_down _ f hf1 hf2)

lemma rnd_eval_up (p : ℕ) (q : ℚ) (L f : ℤ) (hq : 0 < q)
    (hbr1 : (2 : ℚ) ^ L ≤ q) (hbr2 : q < (2 : ℚ) ^ (L + 1))
    (hf1 : (f : ℚ) ≤ q * (2 : ℚ) ^ ((p : ℤ) - 1 - L))
    (hf2 : 1 / 2 < q * (2 : ℚ) ^ ((p : ℤ) - 1 - L) - f)
    (hf3 : q * (2 : ℚ) ^ ((p : ℤ) - 1 - L) < f + 1) :
    rnd p q = ((f : ℚ) + 1) * (2 : ℚ) ^ (L + 1 - (p : ℤ)) := by
  have h := rnd_eval p q L (f + 1) hq hbr1 hbr2 (roundNE_eq_up _ f hf1 hf2 hf3)
  rw [h]
  push_cast
  ring

lemma rnd_dyadic (p : ℕ) (m : ℕ) (k : ℤ) (hm : 0 < m) (hmb : m < 2 ^ p) :
    rnd p ((m : ℚ) * (2 : ℚ) ^ k) = (m : ℚ) * (2 : ℚ) ^ k := by
  have hq : (0 : ℚ) < (m : ℚ) * (2 : ℚ) ^ k := by
    have h1 : (0 : ℚ) < (m : ℚ) := by exact_mod_cast hm
    have h2 : (0 : ℚ) < (2 : ℚ) ^ k := zpow_pos (by norm_num) _
    positivity
  obtain ⟨ha1, ha2⟩ := natLog2_bracket m hm
  set a := natLog2 m with hadef
  have haQ1 : (2 : ℚ) ^ (a : ℤ) ≤ (m : ℚ) := by
    rw [zpow_natCast]
    exact_mod_cast ha1
  have haQ2 : (m : ℚ) < (2 : ℚ) ^ ((a : ℤ) + 1) := by
    rw [show ((a : ℤ) + 1) = ((a + 1 : ℕ) : ℤ) by push_cast; ring, zpow_natCast]
    exact_mod_cast ha2
  have h2k : (0 : ℚ) < (2 : ℚ) ^ k := zpow_pos (by norm_num) _
  have hbr1 : (2 : ℚ) ^ ((a : ℤ) + k) ≤ (m : ℚ) * (2 : ℚ) ^ k := by
    rw [zpow_add₀ (two_ne_zero : (2 : ℚ) ≠ 0)]
    exact mul_le_mul_of_nonneg_right haQ1 h2k.le
  have hbr2 : (m : ℚ) * (2 : ℚ) ^ k < (2 : ℚ) ^ ((a : ℤ) + k + 1) := by
    rw [show (a : ℤ) + k + 1 = ((a : ℤ) + 1) + k by ring,
      zpow_add₀ (two_ne_zero : (2 : ℚ) ≠ 0)]
    exact mul_lt_mul_of_pos_right haQ2 h2k
  have hap : a < p := by
    by_contra hcon
    push_neg at hcon
    have hpow : (2 : ℕ) ^ p ≤ 2 ^ a := Nat.pow_le_pow_right (by norm_num) hcon
    have hlt : m < 2 ^ a := lt_of_lt_of_le hmb hpow
    omega
  set e : ℤ := (p : ℤ) - 1 - ((a : ℤ) + k) with hedef
  have hke : 0 ≤ k + e := by omega
  have hsplit : (2 : ℚ) ^ ((k + e).toNat : ℕ) = (2 : ℚ) ^ (k + e) := by
    rw [← zpow_natCast, Int.toNat_of_nonneg hke]
  have hint : (m : ℚ) * (2 : ℚ) ^ k * (2 : ℚ) ^ e
      = (((m * 2 ^ (k + e).toNat : ℕ) : ℤ) : ℚ) := by
    rw [mul_assoc, ← zpow_add₀ (two_ne_zero : (2 : ℚ) ≠ 0), ← hsplit]
    push_cast
    ring
  have heval := rnd_eval p ((m : ℚ) * (2 : ℚ) ^ k) ((a : ℤ) + k)
    ((m * 2 ^ (k + e).toNat : ℕ) : ℤ) hq hbr1 hbr2 (by rw [← hedef, hint, roundNE_intCast])
  rw [heval]
  have hcast : (((m * 2 ^ (k + e).toNat : ℕ) : ℤ) : ℚ)
      = (m : ℚ) * (2 : ℚ) ^ (k + e) := by
    rw [← hsplit]
    push_cast
    ring
  rw [hcast, mul_assoc, ← zpow_add₀ (two_ne_zero : (2 : ℚ) ≠ 0)]
  have hexp : k + e + ((a : ℤ) + k + 1 - (p : ℤ)) = k := by omega
  rw [hexp]

lemma truncQ_of_nonneg (q : ℚ) (h : 0 ≤ q) : truncQ q = ⌊q⌋ := if_pos h

lemma truncQ_eval (q : ℚ) (f : ℤ) (h0 : 0 ≤ f) (h1 : (f : ℚ) ≤ q) (h2 : q < f + 1) :
    truncQ q = f := by
  have hq0 : (0 : ℚ) ≤ q := le_trans (by exact_mod_cast h0) h1
  rw [truncQ_of_nonneg q hq0, Int.floor_eq_iff]
  refine ⟨h1, ?_⟩
  linarith

lemma evenUp_even (n : ℕ) : evenUp n % 2 = 0 := by
  unfold evenUp
  by_cases h : n % 2 = 0
  · rw [if_pos h]
    exact h
  · rw [if_neg h]
    omega

lemma evenUp_le (n : ℕ) : evenUp n ≤ n + 1 := by
  unfold evenUp
  split_ifs <;> omega

lemma le_evenUp (n : ℕ) : n ≤ evenUp n := by
  unfold evenUp
  split_ifs <;> omega

lemma brawDstDims_eq (srcW srcH : ℕ) (maxDim : ℤ)
    (h : 0 < maxDim ∧ maxDim.toNat < min srcW srcH) :
    brawDstDims srcW srcH maxDim =
      (evenUp (truncQ (rnd 53 ((srcW : ℚ) *
        rnd 53 ((maxDim : ℚ) / ((min srcW srcH : ℕ) : ℚ))))).toNat,
       evenUp (truncQ (rnd 53 ((srcH : ℚ) *
        rnd 53 ((maxDim : ℚ) / ((min srcW srcH : ℕ) : ℚ))))).toNat) := by
  unfold brawDstDims
  rw [if_pos h]

lemma r3dDstDims_eq (width height : ℕ) (maxDim : ℤ)
    (h : 0 < maxDim ∧ maxDim < int32cast (min width height)) :
    r3dDstDims width height maxDim =
      (evenUp (truncQ (rnd 53 (rnd 53 ((width : ℚ)) *
        rnd 53 ((maxDim : ℚ) / rnd 53 (((min width height : ℕ) : ℚ)))))).toNat,
       evenUp (truncQ (rnd 53 (rnd 53 ((height : ℚ)) *
        rnd 53 ((maxDim : ℚ) / rnd 53 (((min width height : ℕ) : ℚ)))))).toNat) := by
  unfold r3dDstDims
  rw [if_pos h]

/-- Sandwich bounds on braw-tool's double-precision scaling chain
`rnd 53 (X * rnd 53 (Mn / S))` around the exact value X * Mn / S. -/
lemma braw_chain_sandwich (X S Mn : ℕ) (hS1 : 1 ≤ S) (hM1 : 1 ≤ Mn) (hX1 : 1 ≤ X) :
    (X : ℚ) * ((Mn : ℚ) / (S : ℚ)) * (1 - (2 : ℚ) ^ (-(53 : ℤ))) ^ 2
      ≤ rnd 53 ((X : ℚ) * rnd 53 ((Mn : ℚ) / (S : ℚ))) ∧
    rnd 53 ((X : ℚ) * rnd 53 ((Mn : ℚ) / (S : ℚ)))
      ≤ (X : ℚ) * ((Mn : ℚ) / (S : ℚ)) * (1 + (2 : ℚ) ^ (-(53 : ℤ))) ^ 2 := by
  have hS0 : (0 : ℚ) < (S : ℚ) := by exact_mod_cast hS1
  have hM0 : (0 : ℚ) < (Mn : ℚ) := by exact_mod_cast hM1
  have hX0 : (0 : ℚ) < (X : ℚ) := by exact_mod_cast hX1
  have hu0 : (0 : ℚ) < (2 : ℚ) ^ (-(53 : ℤ)) := zpow_pos (by norm_num) _
  have hu1 : (2 : ℚ) ^ (-(53 : ℤ)) < 1 := by norm_num
  have hucast : (2 : ℚ) ^ (-((53 : ℕ) : ℤ)) = (2 : ℚ) ^ (-(53 : ℤ)) := by norm_num
  have hq1 : (0 : ℚ) < (Mn : ℚ) / (S : ℚ) := div_pos hM0 hS0
  have hs_up := rnd_le 53 ((Mn : ℚ) / (S : ℚ)) hq1
  have hs_lo := le_rnd 53 ((Mn : ℚ) / (S : ℚ)) hq1
  rw [hucast] at hs_up hs_lo
  have hs0 : 0 < rnd 53 ((Mn : ℚ) / (S : ℚ)) := by
    refine lt_of_lt_of_le ?_ hs_lo
    have : (0 : ℚ) < 1 - (2 : ℚ) ^ (-(53 : ℤ)) := by linarith
    positivity
  have hP0 : 0 < (X : ℚ) * rnd 53 ((Mn : ℚ) / (S : ℚ)) := mul_pos hX0 hs0
  have hP_up := rnd_le 53 _ hP0
  have hP_lo := le_rnd 53 _ hP0
  rw [hucast] at hP_up hP_lo
  constructor
  · calc (X : ℚ) * ((Mn : ℚ) / (S : ℚ)) * (1 - (2 : ℚ) ^ (-(53 : ℤ))) ^ 2
        = ((X : ℚ) * (((Mn : ℚ) / (S : ℚ)) * (1 - (2 : ℚ) ^ (-(53 : ℤ)))))
            * (1 - (2 : ℚ) ^ (-(53 : ℤ))) := by ring
      _ ≤ ((X : ℚ) * rnd 53 ((Mn : ℚ) / (S : ℚ))) * (1 - (2 : ℚ) ^ (-(53 : ℤ))) := by
          have hfac : (0 : ℚ) ≤ 1 - (2 : ℚ) ^ (-(53 : ℤ)) := by linarith
          apply mul_le_mul_of_nonneg_right _ hfac
          exact mul_le_mul_of_nonneg_left hs_lo hX0.le
      _ ≤ rnd 53 ((X : ℚ) * rnd 53 ((Mn : ℚ) / (S : ℚ))) := hP_lo
  · calc rnd 53 ((X : ℚ) * rnd 53 ((Mn : ℚ) / (S : ℚ)))
        ≤ ((X : ℚ) * rnd 53 ((Mn : ℚ) / (S : ℚ))) * (1 + (2 : ℚ) ^ (-(53 : ℤ))) := hP_up
      _ ≤ ((X : ℚ) * (((Mn : ℚ) / (S : ℚ)) * (1 + (2 : ℚ) ^ (-(53 : ℤ)))))
            * (1 + (2 : ℚ) ^ (-(53 : ℤ))) := by
          have hfac : (0 : ℚ) ≤ 1 + (2 : ℚ) ^ (-(53 : ℤ)) := by linarith
          apply mul_le_mul_of_nonneg_right _ hfac
          exact mul_le_mul_of_nonneg_left hs_up hX0.le
      _ = (X : ℚ) * ((Mn : ℚ) / (S : ℚ)) * (1 + (2 : ℚ) ^ (-(53 : ℤ))) ^ 2 := by ring

/-- In the resize branch braw-tool's computed double value stays strictly
below the source dimension. -/
lemma braw_chain_lt (X S Mn : ℕ) (hS1 : 1 ≤ S) (hSX : S ≤ X) (hM1 : 1 ≤ Mn)
    (hMS : Mn < S) (hS32 : S < 2 ^ 32) :
    rnd 53 ((X : ℚ) * rnd 53 ((Mn : ℚ) / (S : ℚ))) < (X : ℚ) := by
  have hS0 : (0 : ℚ) < (S : ℚ) := by exact_mod_cast hS1
  have hX0 : (0 : ℚ) < (X : ℚ) := by
    have : (1 : ℕ) ≤ X := le_trans hS1 hSX
    exact_mod_cast this
  have hup := (braw_chain_sandwich X S Mn hS1 hM1 (le_trans hS1 hSX)).2
  refine lt_of_le_of_lt hup ?_
  have hrw : (X : ℚ) * ((Mn : ℚ) / (S : ℚ)) * (1 + (2 : ℚ) ^ (-(53 : ℤ))) ^ 2
      = (X : ℚ) * ((Mn : ℚ) * (1 + (2 : ℚ) ^ (-(53 : ℤ))) ^ 2) / (S : ℚ) := by
    ring
  rw [hrw, div_lt_iff₀ hS0]
  have hcore : (Mn : ℚ) * (1 + (2 : ℚ) ^ (-(53 : ℤ))) ^ 2 < (S : ℚ) := by
    have hu : (2 : ℚ) ^ (-(53 : ℤ)) = 1 / 9007199254740992 := by norm_num
    rw [hu]
    have hMn : (Mn : ℚ) ≤ (S : ℚ) - 1 := by
      have : Mn + 1 ≤ S := hMS
      have hc : ((Mn + 1 : ℕ) : ℚ) ≤ (S : ℚ) := by exact_mod_cast this
      push_cast at hc
      linarith
    have hSb : (S : ℚ) ≤ 4294967296 := by
      have : S ≤ 4294967296 := by omega
      exact_mod_cast this
    nlinarith [hMn, hSb, hS0]
  calc (X : ℚ) * ((Mn : ℚ) * (1 + (2 : ℚ) ^ (-(53 : ℤ))) ^ 2)
      < (X : ℚ) * (S : ℚ) := by
        exact mul_lt_mul_of_pos_left hcore hX0
    _ = (X : ℚ) * (S : ℚ) := rfl

/-- Sandwich bounds on r3d-tool's double-precision scaling chain
`rnd 53 (rnd 53 X * rnd 53 (Mn / rnd 53 S))` around X * Mn / S; the extra
roundings come from the size_t → double conversions. -/
lemma r3d_chain_sandwich (X S Mn : ℕ) (hS1 : 1 ≤ S) (hM1 : 1 ≤ Mn) (hX1 : 1 ≤ X) :
    (X : ℚ) * (Mn : ℚ) * (1 - (2 : ℚ) ^ (-(53 : ℤ))) ^ 3
        / ((S : ℚ) * (1 + (2 : ℚ) ^ (-(53 : ℤ))))
      ≤ rnd 53 (rnd 53 ((X : ℚ)) * rnd 53 ((Mn : ℚ) / rnd 53 ((S : ℚ)))) ∧
    rnd 53 (rnd 53 ((X : ℚ)) * rnd 53 ((Mn : ℚ) / rnd 53 ((S : ℚ))))
      ≤ (X : ℚ) * (Mn : ℚ) * (1 + (2 : ℚ) ^ (-(53 : ℤ))) ^ 3
        / ((S : ℚ) * (1 - (2 : ℚ) ^ (-(53 : ℤ)))) := by
  have hS0 : (0 : ℚ) < (S : ℚ) := by exact_mod_cast hS1
  have hM0 : (0 : ℚ) < (Mn : ℚ) := by exact_mod_cast hM1
  have hX0 : (0 : ℚ) < (X : ℚ) := by exact_mod_cast hX1
  have hu0 : (0 : ℚ) < (2 : ℚ) ^ (-(53 : ℤ)) := zpow_pos (by norm_num) _
  have hu1 : (2 : ℚ) ^ (-(53 : ℤ)) < 1 := by norm_num
  have hum : (0 : ℚ) < 1 - (2 : ℚ) ^ (-(53 : ℤ)) := by linarith
  have hup : (0 : ℚ) < 1 + (2 : ℚ) ^ (-(53 : ℤ)) := by linarith
  have hucast : (2 : ℚ) ^ (-((53 : ℕ) : ℤ)) = (2 : ℚ) ^ (-(53 : ℤ)) := by norm_num
  have hrS_up := rnd_le 53 ((S : ℚ)) hS0
  have hrS_lo := le_rnd 53 ((S : ℚ)) hS0
  rw [hucast] at hrS_up hrS_lo
  have hrS0 : 0 < rnd 53 ((S : ℚ)) := lt_of_lt_of_le (by positivity) hrS_lo
  have hq0 : (0 : ℚ) < (Mn : ℚ) / rnd 53 ((S : ℚ)) := div_pos hM0 hrS0
  have hq_up : (Mn : ℚ) / rnd 53 ((S : ℚ))
      ≤ (Mn : ℚ) / ((S : ℚ) * (1 - (2 : ℚ) ^ (-(53 : ℤ)))) := by
    apply div_le_div_of_nonneg_left hM0.le (by positivity) hrS_lo
  have hq_lo : (Mn : ℚ) / ((S : ℚ) * (1 + (2 : ℚ) ^ (-(53 : ℤ))))
      ≤ (Mn : ℚ) / rnd 53 ((S : ℚ)) := by
    apply div_le_div_of_nonneg_left hM0.le hrS0 hrS_up
  have hs_up := rnd_le 53 _ hq0
  have hs_lo := le_rnd 53 _ hq0
  rw [hucast] at hs_up hs_lo
  have hs0 : 0 < rnd 53 ((Mn : ℚ) / rnd 53 ((S : ℚ))) := by
    refine lt_of_lt_of_le ?_ hs_lo
    positivity
  have hw_up := rnd_le 53 ((X : ℚ)) hX0
  have hw_lo := le_rnd 53 ((X : ℚ)) hX0
  rw [hucast] at hw_up hw_lo
  have hw0 : 0 < rnd 53 ((X : ℚ)) := lt_of_lt_of_le (by positivity) hw_lo
  have hP0 : 0 < rnd 53 ((X : ℚ)) * rnd 53 ((Mn : ℚ) / rnd 53 ((S : ℚ))) :=
    mul_pos hw0 hs0
  have hP_up := rnd_le 53 _ hP0
  have hP_lo := le_rnd 53 _ hP0
  rw [hucast] at hP_up hP_lo
  constructor
  · refine le_trans ?_ hP_lo
    have hww : (X : ℚ) * (1 - (2 : ℚ) ^ (-(53 : ℤ)))
        * ((Mn : ℚ) / ((S : ℚ) * (1 + (2 : ℚ) ^ (-(53 : ℤ))))
            * (1 - (2 : ℚ) ^ (-(53 : ℤ))))
        ≤ rnd 53 ((X : ℚ)) * rnd 53 ((Mn : ℚ) / rnd 53 ((S : ℚ))) := by
      apply mul_le_mul
      · exact hw_lo
      · exact le_trans (mul_le_mul_of_nonneg_right hq_lo hum.le) hs_lo
      · positivity
      · exact hw0.le
    calc (X : ℚ) * (Mn : ℚ) * (1 - (2 : ℚ) ^ (-(53 : ℤ))) ^ 3
          / ((S : ℚ) * (1 + (2 : ℚ) ^ (-(53 : ℤ))))
        = (X : ℚ) * (1 - (2 : ℚ) ^ (-(53 : ℤ)))
            * ((Mn : ℚ) / ((S : ℚ) * (1 + (2 : ℚ) ^ (-(53 : ℤ))))
                * (1 - (2 : ℚ) ^ (-(53 : ℤ))))
            * (1 - (2 : ℚ) ^ (-(53 : ℤ))) := by
          field_simp
          ring
      _ ≤ rnd 53 ((X : ℚ)) * rnd 53 ((Mn : ℚ) / rnd 53 ((S : ℚ)))
            * (1 - (2 : ℚ) ^ (-(53 : ℤ))) :=
          mul_le_mul_of_nonneg_right hww hum.le
  · refine le_trans hP_up ?_
    have hww : rnd 53 ((X : ℚ)) * rnd 53 ((Mn : ℚ) / rnd 53 ((S : ℚ)))
        ≤ (X : ℚ) * (1 + (2 : ℚ) ^ (-(53 : ℤ)))
          * ((Mn : ℚ) / ((S : ℚ) * (1 - (2 : ℚ) ^ (-(53 : ℤ))))
              * (1 + (2 : ℚ) ^ (-(53 : ℤ)))) := by
      apply mul_le_mul
      · exact hw_up
      · exact le_trans hs_up (mul_le_mul_of_nonneg_right hq_up hup.le)
      · exact hs0.le
      · positivity
    calc rnd 53 ((X : ℚ)) * rnd 53 ((Mn : ℚ) / rnd 53 ((S : ℚ)))
          * (1 + (2 : ℚ) ^ (-(53 : ℤ)))
        ≤ (X : ℚ) * (1 + (2 : ℚ) ^ (-(53 : ℤ)))
            * ((Mn : ℚ) / ((S : ℚ) * (1 - (2 : ℚ) ^ (-(53 : ℤ))))
                * (1 + (2 : ℚ) ^ (-(53 : ℤ))))
            * (1 + (2 : ℚ) ^ (-(53 : ℤ))) :=
          mul_le_mul_of_nonneg_right hww hup.le
      _ = (X : ℚ) * (Mn : ℚ) * (1 + (2 : ℚ) ^ (-(53 : ℤ))) ^ 3
            / ((S : ℚ) * (1 - (2 : ℚ) ^ (-(53 : ℤ)))) := by
          field_simp
          ring

/-- In the resize branch r3d-tool's computed double value stays strictly
below the source dimension (Mn < 2^31 holds there because maxDim is
compared against the int-cast short edge). -/
lemma r3d_chain_lt (X S Mn : ℕ) (hS1 : 1 ≤ S) (hSX : S ≤ X) (hM1 : 1 ≤ Mn)
    (hMS : Mn < S) (hM31 : Mn < 2 ^ 31) :
    rnd 53 (rnd 53 ((X : ℚ)) * rnd 53 ((Mn : ℚ) / rnd 53 ((S : ℚ)))) < (X : ℚ) := by
  have hS0 : (0 : ℚ) < (S : ℚ) := by exact_mod_cast hS1
  have hX0 : (0 : ℚ) < (X : ℚ) := by
    have : (1 : ℕ) ≤ X := le_trans hS1 hSX
    exact_mod_cast this
  have hu0 : (0 : ℚ) < (2 : ℚ) ^ (-(53 : ℤ)) := zpow_pos (by norm_num) _
  have hu1 : (2 : ℚ) ^ (-(53 : ℤ)) < 1 := by norm_num
  have hum : (0 : ℚ) < 1 - (2 : ℚ) ^ (-(53 : ℤ)) := by linarith
  have hup := (r3d_chain_sandwich X S Mn hS1 hM1 (le_trans hS1 hSX)).2
  refine lt_of_le_of_lt hup ?_
  rw [div_lt_iff₀ (by positivity)]
  have hcore : (Mn : ℚ) * (1 + (2 : ℚ) ^ (-(53 : ℤ))) ^ 3
      < (S : ℚ) * (1 - (2 : ℚ) ^ (-(53 : ℤ))) := by
    have hu : (2 : ℚ) ^ (-(53 : ℤ)) = 1 / 9007199254740992 := by norm_num
    rw [hu]
    by_cases hcase : S ≤ 2 ^ 32
    · have hMn : (Mn : ℚ) ≤ (S : ℚ) - 1 := by
        have h : Mn + 1 ≤ S := hMS
        have hc : ((Mn + 1 : ℕ) : ℚ) ≤ (S : ℚ) := by exact_mod_cast h
        push_cast at hc
        linarith
      have hSb : (S : ℚ) ≤ 4294967296 := by exact_mod_cast hcase
      nlinarith [hMn, hSb, hS0]
    · push_neg at hcase
      have hMb : (Mn : ℚ) ≤ 2147483647 := by
        have h : Mn ≤ 2147483647 := by omega
        exact_mod_cast h
      have hSb : (4294967296 : ℚ) ≤ (S : ℚ) := by
        have h : 4294967296 ≤ S := by omega
        exact_mod_cast h
      nlinarith [hMb, hSb]
  calc (X : ℚ) * (Mn : ℚ) * (1 + (2 : ℚ) ^ (-(53 : ℤ))) ^ 3
      = (X : ℚ) * ((Mn : ℚ) * (1 + (2 : ℚ) ^ (-(53 : ℤ))) ^ 3) := by ring
    _ < (X : ℚ) * ((S : ℚ) * (1 - (2 : ℚ) ^ (-(53 : ℤ)))) :=
        mul_lt_mul_of_pos_left hcore hX0
    _ = (X : ℚ) * ((S : ℚ) * (1 - (2 : ℚ) ^ (-(53 : ℤ)))) := rfl

lemma brawDstDims_else (srcW srcH : ℕ) (maxDim : ℤ)
    (h : ¬(0 < maxDim ∧ maxDim.toNat < min srcW srcH)) :
    brawDstDims srcW srcH maxDim = (srcW, srcH) := by
  unfold brawDstDims
  rw [if_neg h]

lemma r3dDstDims_else (width height : ℕ) (maxDim : ℤ)
    (h : ¬(0 < maxDim ∧ maxDim < int32cast (min width height))) :
    r3dDstDims width height maxDim = (width, height) := by
  unfold r3dDstDims
  rw [if_neg h]

lemma int32cast_le (n : ℕ) : int32cast n ≤ (n : ℤ) := by
  unfold int32cast
  split_ifs with h <;> omega

lemma int32cast_lt31 (n : ℕ) : int32cast n < 2 ^ 31 := by
  unfold int32cast
  split_ifs with h
  · omega
  · have := Nat.mod_lt n (show 0 < 2 ^ 32 by norm_num)
    omega

lemma evenUp_floor_le (P : ℚ) (X : ℕ) (hP0 : 0 ≤ P) (hPX : P < (X : ℚ)) :
    evenUp (truncQ P).toNat ≤ X := by
  rw [truncQ_of_nonneg P hP0, Int.floor_toNat]
  have ht : ⌊P⌋₊ < X := by
    rw [Nat.floor_lt hP0]
    exact hPX
  have := evenUp_le ⌊P⌋₊
  omega

/-- C10: the scaling computation never enlarges the image, and when the
target differs from the source both target dimensions are even.  Stated
for both tools; srcW, srcH < 2^32 reflects braw-tool's uint32_t
dimension type. -/
theorem c10_scaling_never_enlarges (W H : ℕ) (M : ℤ)
    (hW1 : 1 ≤ W) (hH1 : 1 ≤ H) (hM1 : 1 ≤ M)
    (hW32 : W < 2 ^ 32) (hH32 : H < 2 ^ 32) :
    ((brawDstDims W H M).1 ≤ W ∧ (brawDstDims W H M).2 ≤ H ∧
      (brawDstDims W H M ≠ (W, H) →
        (brawDstDims W H M).1 % 2 = 0 ∧ (brawDstDims W H M).2 % 2 = 0)) ∧
    ((r3dDstDims W H M).1 ≤ W ∧ (r3dDstDims W H M).2 ≤ H ∧
      (r3dDstDims W H M ≠ (W, H) →
        (r3dDstDims W H M).1 % 2 = 0 ∧ (r3dDstDims W H M).2 % 2 = 0)) := by
  have hM0Q : (0 : ℚ) ≤ (M : ℚ) := by exact_mod_cast (by omega : (0 : ℤ) ≤ M)
  constructor
  · by_cases hb : 0 < M ∧ M.toNat < min W H
    · obtain ⟨hbM, hbS⟩ := hb
      have hS1 : 1 ≤ min W H := by omega
      have hMn1 : 1 ≤ M.toNat := by omega
      have hS32 : min W H < 2 ^ 32 := by omega
      have hMcast : ((M.toNat : ℕ) : ℚ) = (M : ℚ) := by
        exact_mod_cast Int.toNat_of_nonneg (by omega : (0 : ℤ) ≤ M)
      have hsc0 : (0 : ℚ) ≤ rnd 53 ((M : ℚ) / ((min W H : ℕ) : ℚ)) := by
        apply rnd_nonneg
        have hden : (0 : ℚ) ≤ ((min W H : ℕ) : ℚ) := by positivity
        exact div_nonneg hM0Q hden
      have hchainW := braw_chain_lt W (min W H) M.toNat hS1 (Nat.min_le_left W H) hMn1 hbS hS32
      have hchainH := braw_chain_lt H (min W H) M.toNat hS1 (Nat.min_le_right W H) hMn1 hbS hS32
      rw [hMcast] at hchainW hchainH
      have hPW0 : (0 : ℚ) ≤ rnd 53 ((W : ℚ) * rnd 53 ((M : ℚ) / ((min W H : ℕ) : ℚ))) := by
        apply rnd_nonneg
        positivity
      have hPH0 : (0 : ℚ) ≤ rnd 53 ((H : ℚ) * rnd 53 ((M : ℚ) / ((min W H : ℕ) : ℚ))) := by
        apply rnd_nonneg
        positivity
      rw [brawDstDims_eq W H M ⟨hbM, hbS⟩]
      refine ⟨?_, ?_, ?_⟩
      · exact evenUp_floor_le _ W hPW0 hchainW
      · exact evenUp_floor_le _ H hPH0 hchainH
      · intro _
        exact ⟨evenUp_even _, evenUp_even _⟩
    · rw [brawDstDims_else W H M hb]
      exact ⟨le_rfl, le_rfl, fun hne => absurd rfl hne⟩
  · by_cases hb : 0 < M ∧ M < int32cast (min W H)
    · obtain ⟨hbM, hbS⟩ := hb
      have hS1 : 1 ≤ min W H := by omega
      have hMn1 : 1 ≤ M.toNat := by omega
      have hcle := int32cast_le (min W H)
      have hc31 := int32cast_lt31 (min W H)
      have hMnS : M.toNat < min W H := by omega
      have hMn31 : M.toNat < 2 ^ 31 := by omega
      have hMcast : ((M.toNat : ℕ) : ℚ) = (M : ℚ) := by
        exact_mod_cast Int.toNat_of_nonneg (by omega : (0 : ℤ) ≤ M)
      have hrS0 : (0 : ℚ) ≤ rnd 53 (((min W H : ℕ) : ℚ)) := by
        apply rnd_nonneg
        positivity
      have hsc0 : (0 : ℚ) ≤ rnd 53 ((M : ℚ) / rnd 53 (((min W H : ℕ) : ℚ))) := by
        apply rnd_nonneg
        exact div_nonneg hM0Q hrS0
      have hchainW := r3d_chain_lt W (min W H) M.toNat hS1 (Nat.min_le_left W H) hMn1
        hMnS hMn31
      have hchainH := r3d_chain_lt H (min W H) M.toNat hS1 (Nat.min_le_right W H) hMn1
        hMnS hMn31
      rw [hMcast] at hchainW hchainH
      have hPW0 : (0 : ℚ) ≤ rnd 53 (rnd 53 ((W : ℚ)) *
          rnd 53 ((M : ℚ) / rnd 53 (((min W H : ℕ) : ℚ)))) := by
        apply rnd_nonneg
        have hw0 : (0 : ℚ) ≤ rnd 53 ((W : ℚ)) := by
          apply rnd_nonneg
          positivity
        exact mul_nonneg hw0 hsc0
      have hPH0 : (0 : ℚ) ≤ rnd 53 (rnd 53 ((H : ℚ)) *
          rnd 53 ((M : ℚ) / rnd 53 (((min W H : ℕ) : ℚ)))) := by
        apply rnd_nonneg
        have hh0 : (0 : ℚ) ≤ rnd 53 ((H : ℚ)) := by
          apply rnd_nonneg
          positivity
        exact mul_nonneg hh0 hsc0
      rw [r3dDstDims_eq W H M ⟨hbM, hbS⟩]
      refine ⟨?_, ?_, ?_⟩
      · exact evenUp_floor_le _ W hPW0 hchainW
      · exact evenUp_floor_le _ H hPH0 hchainH
      · intro _
        exact ⟨evenUp_even _, evenUp_even _⟩
    · rw [r3dDstDims_else W H M hb]
      exact ⟨le_rfl, le_rfl, fun hne => absurd rfl hne⟩

/-- C10 witness at srcW = srcH = 22, maxDim = 15. -/
theorem c10_scaling_never_enlarges_witness :
    (1 ≤ 22 ∧ 1 ≤ (15 : ℤ) ∧ 22 < 2 ^ 32) ∧
    ((brawDstDims 22 22 15).1 ≤ 22 ∧ (brawDstDims 22 22 15).2 ≤ 22 ∧
      (brawDstDims 22 22 15 ≠ (22, 22) →
        (brawDstDims 22 22 15).1 % 2 = 0 ∧ (brawDstDims 22 22 15).2 % 2 = 0)) ∧
    ((r3dDstDims 22 22 15).1 ≤ 22 ∧ (r3dDstDims 22 22 15).2 ≤ 22 ∧
      (r3dDstDims 22 22 15 ≠ (22, 22) →
        (r3dDstDims 22 22 15).1 % 2 = 0 ∧ (r3dDstDims 22 22 15).2 % 2 = 0)) :=
  ⟨⟨by norm_num, by norm_num, by norm_num⟩,
    (c10_scaling_never_enlarges 22 22 15 (by norm_num) (by norm_num) (by norm_num)
      (by norm_num) (by norm_num)).1,
    (c10_scaling_never_enlarges 22 22 15 (by norm_num) (by norm_num) (by norm_num)
      (by norm_num) (by norm_num)).2⟩

lemma evenUp_close (a b : ℕ) (h1 : a ≤ b + 1) (h2 : b ≤ a + 1) :
    evenUp a ≤ evenUp b + 2 ∧ evenUp b ≤ evenUp a + 2 := by
  have ha1 := evenUp_le a
  have ha2 := le_evenUp a
  have hb1 := evenUp_le b
  have hb2 := le_evenUp b
  omega

/-- braw's double-precision per-component target value is within one of
the exact floored quotient. -/
lemma braw_floor_close (X S Mn : ℕ) (hS1 : 1 ≤ S) (hM1 : 1 ≤ Mn) (hX1 : 1 ≤ X)
    (hX32 : X < 2 ^ 32) (hMS : Mn ≤ S) :
    ⌊rnd 53 ((X : ℚ) * rnd 53 ((Mn : ℚ) / (S : ℚ)))⌋₊ ≤ X * Mn / S + 1 ∧
    X * Mn / S ≤ ⌊rnd 53 ((X : ℚ) * rnd 53 ((Mn : ℚ) / (S : ℚ)))⌋₊ + 1 := by
  have hS0 : (0 : ℚ) < (S : ℚ) := by exact_mod_cast hS1
  have hM0 : (0 : ℚ) < (Mn : ℚ) := by exact_mod_cast hM1
  have hX0 : (0 : ℚ) < (X : ℚ) := by exact_mod_cast hX1
  obtain ⟨hlo, hup⟩ := braw_chain_sandwich X S Mn hS1 hM1 hX1
  set P := rnd 53 ((X : ℚ) * rnd 53 ((Mn : ℚ) / (S : ℚ))) with hPdef
  set E : ℚ := (X : ℚ) * ((Mn : ℚ) / (S : ℚ)) with hEdef
  have hE0 : 0 < E := by
    rw [hEdef]
    positivity
  have hEX : E ≤ (X : ℚ) := by
    rw [hEdef]
    have hq1 : (Mn : ℚ) / (S : ℚ) ≤ 1 := by
      rw [div_le_one hS0]
      exact_mod_cast hMS
    calc (X : ℚ) * ((Mn : ℚ) / (S : ℚ)) ≤ (X : ℚ) * 1 :=
          mul_le_mul_of_nonneg_left hq1 hX0.le
      _ = (X : ℚ) := by ring
  have hXb : (X : ℚ) ≤ 4294967296 := by
    have h : X ≤ 4294967296 := by omega
    exact_mod_cast h
  have hu : (2 : ℚ) ^ (-(53 : ℤ)) = 1 / 9007199254740992 := by norm_num
  rw [hu] at hlo hup
  have hP_lt : P < E + 1 := by
    have herr : E * (2 * (1 / 9007199254740992) + (1 / 9007199254740992) ^ 2) < 1 := by
      have hstep : E * (2 * (1 / 9007199254740992) + (1 / 9007199254740992) ^ 2)
          ≤ 4294967296 * (2 * (1 / 9007199254740992) + (1 / 9007199254740992) ^ 2) := by
        apply mul_le_mul_of_nonneg_right (le_trans hEX hXb) (by norm_num)
      refine lt_of_le_of_lt hstep ?_
      norm_num
    nlinarith [hup, herr, hE0]
  have hP_gt : E - 1 < P := by
    have herr : E * (2 * (1 / 9007199254740992)) < 1 := by
      have hstep : E * (2 * (1 / 9007199254740992))
          ≤ 4294967296 * (2 * (1 / 9007199254740992)) := by
        apply mul_le_mul_of_nonneg_right (le_trans hEX hXb) (by norm_num)
      refine lt_of_le_of_lt hstep ?_
      norm_num
    nlinarith [hlo, herr, hE0]
  have hP0 : (0 : ℚ) ≤ P := by
    nlinarith [hlo, hE0]
  have hEfloor : ⌊E⌋₊ = X * Mn / S := by
    have hEeq : E = ((X * Mn : ℕ) : ℚ) / ((S : ℕ) : ℚ) := by
      rw [hEdef]
      push_cast
      ring
    rw [hEeq, Nat.floor_div_eq_div]
  constructor
  · have hlt : P < ((X * Mn / S + 2 : ℕ) : ℚ) := by
      have hE2 : E < ((X * Mn / S : ℕ) : ℚ) + 1 := by
        rw [← hEfloor]
        exact Nat.lt_floor_add_one E
      push_cast
      push_cast at hE2
      linarith
    have := (Nat.floor_lt hP0).mpr hlt
    omega
  · have hle : E ≤ P + 1 := by linarith
    have h1 : ⌊E⌋₊ ≤ ⌊P + 1⌋₊ := Nat.floor_le_floor hle
    rw [Nat.floor_add_one hP0] at h1
    omega

/-- r3d's double-precision per-component target value is within one of
the exact floored quotient, for dimensions below 2^48. -/
lemma r3d_floor_close (X S Mn : ℕ) (hS1 : 1 ≤ S) (hM1 : 1 ≤ Mn) (hX1 : 1 ≤ X)
    (hX48 : X < 2 ^ 48) (hMS : Mn ≤ S) :
    ⌊rnd 53 (rnd 53 ((X : ℚ)) * rnd 53 ((Mn : ℚ) / rnd 53 ((S : ℚ))))⌋₊
      ≤ X * Mn / S + 1 ∧
    X * Mn / S ≤ ⌊rnd 53 (rnd 53 ((X : ℚ)) * rnd 53 ((Mn : ℚ) / rnd 53 ((S : ℚ))))⌋₊ + 1 := by
  have hS0 : (0 : ℚ) < (S : ℚ) := by exact_mod_cast hS1
  have hM0 : (0 : ℚ) < (Mn : ℚ) := by exact_mod_cast hM1
  have hX0 : (0 : ℚ) < (X : ℚ) := by exact_mod_cast hX1
  obtain ⟨hlo, hup⟩ := r3d_chain_sandwich X S Mn hS1 hM1 hX1
  set P := rnd 53 (rnd 53 ((X : ℚ)) * rnd 53 ((Mn : ℚ) / rnd 53 ((S : ℚ)))) with hPdef
  set E : ℚ := (X : ℚ) * ((Mn : ℚ) / (S : ℚ)) with hEdef
  have hE0 : 0 < E := by
    rw [hEdef]
    positivity
  have hEX : E ≤ (X : ℚ) := by
    rw [hEdef]
    have hq1 : (Mn : ℚ) / (S : ℚ) ≤ 1 := by
      rw [div_le_one hS0]
      exact_mod_cast hMS
    calc (X : ℚ) * ((Mn : ℚ) / (S : ℚ)) ≤ (X : ℚ) * 1 :=
          mul_le_mul_of_nonneg_left hq1 hX0.le
      _ = (X : ℚ) := by ring
  have hXb : (X : ℚ) ≤ 281474976710656 := by
    have h : X ≤ 281474976710656 := by omega
    exact_mod_cast h
  have hu : (2 : ℚ) ^ (-(53 : ℤ)) = 1 / 9007199254740992 := by norm_num
  rw [hu] at hlo hup
  have hupE : (X : ℚ) * (Mn : ℚ) * (1 + 1 / 9007199254740992) ^ 3
      / ((S : ℚ) * (1 - 1 / 9007199254740992))
      ≤ E * (1 + 5 * (1 / 9007199254740992)) := by
    have heq : (X : ℚ) * (Mn : ℚ) * (1 + 1 / 9007199254740992) ^ 3
        / ((S : ℚ) * (1 - 1 / 9007199254740992))
        = E * ((1 + 1 / 9007199254740992) ^ 3 / (1 - 1 / 9007199254740992)) := by
      rw [hEdef]
      field_simp
      ring
    rw [heq]
    apply mul_le_mul_of_nonneg_left _ hE0.le
    rw [div_le_iff₀ (by norm_num)]
    norm_num
  have hloE : E * (1 - 5 * (1 / 9007199254740992))
      ≤ (X : ℚ) * (Mn : ℚ) * (1 - 1 / 9007199254740992) ^ 3
      / ((S : ℚ) * (1 + 1 / 9007199254740992)) := by
    have heq : (X : ℚ) * (Mn : ℚ) * (1 - 1 / 9007199254740992) ^ 3
        / ((S : ℚ) * (1 + 1 / 9007199254740992))
        = E * ((1 - 1 / 9007199254740992) ^ 3 / (1 + 1 / 9007199254740992)) := by
      rw [hEdef]
      field_simp
      ring
    rw [heq]
    apply mul_le_mul_of_nonneg_left _ hE0.le
    rw [le_div_iff₀ (by norm_num)]
    norm_num
  have herr : E * (5 * (1 / 9007199254740992)) < 1 := by
    have hstep : E * (5 * (1 / 9007199254740992))
        ≤ 281474976710656 * (5 * (1 / 9007199254740992)) := by
      apply mul_le_mul_of_nonneg_right (le_trans hEX hXb) (by norm_num)
    refine lt_of_le_of_lt hstep ?_
    norm_num
  have hP_lt : P < E + 1 := by nlinarith [hup, hupE, herr, hE0]
  have hP_gt : E - 1 < P := by nlinarith [hlo, hloE, herr, hE0]
  have hP0 : (0 : ℚ) ≤ P := by nlinarith [hlo, hloE, herr, hE0]
  have hEfloor : ⌊E⌋₊ = X * Mn / S := by
    have hEeq : E = ((X * Mn : ℕ) : ℚ) / ((S : ℕ) : ℚ) := by
      rw [hEdef]
      push_cast
      ring
    rw [hEeq, Nat.floor_div_eq_div]
  constructor
  · have hlt : P < ((X * Mn / S + 2 : ℕ) : ℚ) := by
      have hE2 : E < ((X * Mn / S : ℕ) : ℚ) + 1 := by
        rw [← hEfloor]
        exact Nat.lt_floor_add_one E
      push_cast
      push_cast at hE2
      linarith
    have := (Nat.floor_lt hP0).mpr hlt
    omega
  · have hle : E ≤ P + 1 := by linarith
    have h1 : ⌊E⌋₊ ≤ ⌊P + 1⌋₊ := Nat.floor_le_floor hle
    rw [Nat.floor_add_one hP0] at h1
    omega

lemma specDstDims_eq (srcW srcH : ℕ) (maxDim : ℤ)
    (h : 0 < maxDim ∧ maxDim.toNat < min srcW srcH) :
    specDstDims srcW srcH maxDim =
      (evenUp (srcW * maxDim.toNat / min srcW srcH),
       evenUp (srcH * maxDim.toNat / min srcW srcH)) := by
  unfold specDstDims
  rw [if_pos h]

lemma specDstDims_else (srcW srcH : ℕ) (maxDim : ℤ)
    (h : ¬(0 < maxDim ∧ maxDim.toNat < min srcW srcH)) :
    specDstDims srcW srcH maxDim = (srcW, srcH) := by
  unfold specDstDims
  rw [if_neg h]

lemma truncQ_toNat_eq_natFloor (P : ℚ) (h : 0 ≤ P) : (truncQ P).toNat = ⌊P⌋₊ := by
  rw [truncQ_of_nonneg P h, Int.floor_toNat]

lemma int32cast_eq_self (n : ℕ) (h : n < 2 ^ 31) : int32cast n = n := by
  unfold int32cast
  have hmod : n % 2 ^ 32 = n := Nat.mod_eq_of_lt (by omega)
  rw [hmod, if_pos h]

/-- C1 (amended): outside the resize branch both tools leave the
dimensions unchanged, exactly as claimed; inside the branch the computed
target dimensions are even and lie within 2 of the claimed
evenUp (floor (src * maxDim / shortEdge)) value — the double-precision
rounding of the scale and of the product can move the truncated
quotient by one in either direction, which even-rounding amplifies to at
most two.  For r3d-tool the branch is additionally guarded by the
int-cast of the short edge, so its part is stated for short edges below
2^31. -/
theorem c1_jpeg_target_dims (W H : ℕ) (M : ℤ) (hW1 : 1 ≤ W) (hH1 : 1 ≤ H)
    (hW32 : W < 2 ^ 32) (hH32 : H < 2 ^ 32) :
    (¬(0 < M ∧ M.toNat < min W H) →
      brawDstDims W H M = (W, H) ∧ specDstDims W H M = (W, H)) ∧
    ((0 < M ∧ M.toNat < min W H) →
      ((brawDstDims W H M).1 ≤ (specDstDims W H M).1 + 2 ∧
       (specDstDims W H M).1 ≤ (brawDstDims W H M).1 + 2 ∧
       (brawDstDims W H M).2 ≤ (specDstDims W H M).2 + 2 ∧
       (specDstDims W H M).2 ≤ (brawDstDims W H M).2 + 2 ∧
       (brawDstDims W H M).1 % 2 = 0 ∧ (brawDstDims W H M).2 % 2 = 0)) ∧
    (min W H < 2 ^ 31 →
      (¬(0 < M ∧ M.toNat < min W H) → r3dDstDims W H M = (W, H)) ∧
      ((0 < M ∧ M.toNat < min W H) →
        ((r3dDstDims W H M).1 ≤ (specDstDims W H M).1 + 2 ∧
         (specDstDims W H M).1 ≤ (r3dDstDims W H M).1 + 2 ∧
         (r3dDstDims W H M).2 ≤ (specDstDims W H M).2 + 2 ∧
         (specDstDims W H M).2 ≤ (r3dDstDims W H M).2 + 2))) := by
  refine ⟨?_, ?_, ?_⟩
  · intro hnb
    exact ⟨brawDstDims_else W H M hnb, specDstDims_else W H M hnb⟩
  · intro hb
    obtain ⟨hbM, hbS⟩ := hb
    have hS1 : 1 ≤ min W H := by omega
    have hMn1 : 1 ≤ M.toNat := by omega
    have hMle : M.toNat ≤ min W H := hbS.le
    have hM0Q : (0 : ℚ) ≤ (M : ℚ) := by exact_mod_cast (by omega : (0 : ℤ) ≤ M)
    have hMcast : ((M.toNat : ℕ) : ℚ) = (M : ℚ) := by
      exact_mod_cast Int.toNat_of_nonneg (by omega : (0 : ℤ) ≤ M)
    have hclW := braw_floor_close W (min W H) M.toNat hS1 hMn1 hW1 hW32 hMle
    have hclH := braw_floor_close H (min W H) M.toNat hS1 hMn1 hH1 hH32 hMle
    rw [hMcast] at hclW hclH
    have hPW0 : (0 : ℚ) ≤ rnd 53 ((W : ℚ) * rnd 53 ((M : ℚ) / ((min W H : ℕ) : ℚ))) := by
      apply rnd_nonneg
      have hs : (0 : ℚ) ≤ rnd 53 ((M : ℚ) / ((min W H : ℕ) : ℚ)) := by
        apply rnd_nonneg
        positivity
      positivity
    have hPH0 : (0 : ℚ) ≤ rnd 53 ((H : ℚ) * rnd 53 ((M : ℚ) / ((min W H : ℕ) : ℚ))) := by
      apply rnd_nonneg
      have hs : (0 : ℚ) ≤ rnd 53 ((M : ℚ) / ((min W H : ℕ) : ℚ)) := by
        apply rnd_nonneg
        positivity
      positivity
    rw [brawDstDims_eq W H M ⟨hbM, hbS⟩, specDstDims_eq W H M ⟨hbM, hbS⟩]
    simp only [truncQ_toNat_eq_natFloor _ hPW0, truncQ_toNat_eq_natFloor _ hPH0]
    obtain ⟨hW2a, hW2b⟩ := evenUp_close _ _ hclW.1 hclW.2
    obtain ⟨hH2a, hH2b⟩ := evenUp_close _ _ hclH.1 hclH.2
    exact ⟨hW2a, hW2b, hH2a, hH2b, evenUp_even _, evenUp_even _⟩
  · intro hS31
    have hceq := int32cast_eq_self (min W H) hS31
    have hcond : (0 < M ∧ M < int32cast (min W H)) ↔ (0 < M ∧ M.toNat < min W H) := by
      rw [hceq]
      constructor
      · rintro ⟨h1, h2⟩
        exact ⟨h1, by omega⟩
      · rintro ⟨h1, h2⟩
        exact ⟨h1, by omega⟩
    refine ⟨?_, ?_⟩
    · intro hnb
      exact r3dDstDims_else W H M (fun hc => hnb (hcond.mp hc))
    · intro hb
      obtain ⟨hbM, hbS⟩ := hb
      have hS1 : 1 ≤ min W H := by omega
      have hMn1 : 1 ≤ M.toNat := by omega
      have hMle : M.toNat ≤ min W H := hbS.le
      have hM0Q : (0 : ℚ) ≤ (M : ℚ) := by exact_mod_cast (by omega : (0 : ℤ) ≤ M)
      have hMcast : ((M.toNat : ℕ) : ℚ) = (M : ℚ) := by
        exact_mod_cast Int.toNat_of_nonneg (by omega : (0 : ℤ) ≤ M)
      have hclW := r3d_floor_close W (min W H) M.toNat hS1 hMn1 hW1 (by omega) hMle
      have hclH := r3d_floor_close H (min W H) M.toNat hS1 hMn1 hH1 (by omega) hMle
      rw [hMcast] at hclW hclH
      have hs0 : (0 : ℚ) ≤ rnd 53 ((M : ℚ) / rnd 53 (((min W H : ℕ) : ℚ))) := by
        apply rnd_nonneg
        have hd : (0 : ℚ) ≤ rnd 53 (((min W H : ℕ) : ℚ)) := by
          apply rnd_nonneg
          positivity
        exact div_nonneg hM0Q hd
      have hPW0 : (0 : ℚ) ≤ rnd 53 (rnd 53 ((W : ℚ)) *
          rnd 53 ((M : ℚ) / rnd 53 (((min W H : ℕ) : ℚ)))) := by
        apply rnd_nonneg
        have hw : (0 : ℚ) ≤ rnd 53 ((W : ℚ)) := by
          apply rnd_nonneg
          positivity
        exact mul_nonneg hw hs0
      have hPH0 : (0 : ℚ) ≤ rnd 53 (rnd 53 ((H : ℚ)) *
          rnd 53 ((M : ℚ) / rnd 53 (((min W H : ℕ) : ℚ)))) := by
        apply rnd_nonneg
        have hh : (0 : ℚ) ≤ rnd 53 ((H : ℚ)) := by
          apply rnd_nonneg
          positivity
        exact mul_nonneg hh hs0
      rw [r3dDstDims_eq W H M (hcond.mpr ⟨hbM, hbS⟩), specDstDims_eq W H M ⟨hbM, hbS⟩]
      simp only [truncQ_toNat_eq_natFloor _ hPW0, truncQ_toNat_eq_natFloor _ hPH0]
      obtain ⟨hW2a, hW2b⟩ := evenUp_close _ _ hclW.1 hclW.2
      obtain ⟨hH2a, hH2b⟩ := evenUp_close _ _ hclH.1 hclH.2
      exact ⟨hW2a, hW2b, hH2a, hH2b⟩

/-- C1 counterexample: at srcW = srcH = 22, maxDim = 15, the code
computes (14, 14) while the claimed formula gives (16, 16): the double
product 22 * fl(15/22) is 14.999999999999998, which truncates to 14,
not floor(22*15/22) = 15. -/
theorem c1_counterexample :
    (0 < (15 : ℤ) ∧ (15 : ℤ).toNat < min 22 22) ∧
    brawDstDims 22 22 15 = (14, 14) ∧
    specDstDims 22 22 15 = (16, 16) ∧
    brawDstDims 22 22 15 ≠ specDstDims 22 22 15 := by
  have hb : brawDstDims 22 22 15 = (14, 14) := by
    rw [brawDstDims_eq 22 22 15 (by decide)]
    have h1 : rnd 53 (((15 : ℤ) : ℚ) / ((min 22 22 : ℕ) : ℚ))
        = (6141272219141585 : ℚ) / 2 ^ 53 := by
      have h := rnd_eval_down 53 (((15 : ℤ) : ℚ) / ((min 22 22 : ℕ) : ℚ)) (-1)
        6141272219141585 (by norm_num) (by norm_num) (by norm_num) (by norm_num)
        (by norm_num)
      rw [h]
      norm_num
    rw [h1]
    have h2 : rnd 53 (((22 : ℕ) : ℚ) * ((6141272219141585 : ℚ) / 2 ^ 53))
        = (8444249301319679 : ℚ) / 2 ^ 49 := by
      have h := rnd_eval_down 53 (((22 : ℕ) : ℚ) * ((6141272219141585 : ℚ) / 2 ^ 53)) 3
        8444249301319679 (by norm_num) (by norm_num) (by norm_num) (by norm_num)
        (by norm_num)
      rw [h]
      norm_num
    rw [h2]
    have h3 : truncQ ((8444249301319679 : ℚ) / 2 ^ 49) = 14 :=
      truncQ_eval _ 14 (by norm_num) (by norm_num) (by norm_num)
    rw [h3]
    decide
  refine ⟨by decide, hb, by decide, ?_⟩
  rw [hb]
  decide

/-- C1 witness for the amended theorem, at srcW = srcH = 22, maxDim = 15. -/
theorem c1_jpeg_target_dims_witness :
    ((1 : ℕ) ≤ 22 ∧ 22 < 2 ^ 32) ∧
    ((0 < (15 : ℤ) ∧ (15 : ℤ).toNat < min 22 22) →
      ((brawDstDims 22 22 15).1 ≤ (specDstDims 22 22 15).1 + 2 ∧
       (specDstDims 22 22 15).1 ≤ (brawDstDims 22 22 15).1 + 2 ∧
       (brawDstDims 22 22 15).2 ≤ (specDstDims 22 22 15).2 + 2 ∧
       (specDstDims 22 22 15).2 ≤ (brawDstDims 22 22 15).2 + 2 ∧
       (brawDstDims 22 22 15).1 % 2 = 0 ∧ (brawDstDims 22 22 15).2 % 2 = 0)) :=
  ⟨⟨by norm_num, by norm_num⟩,
    (c1_jpeg_target_dims 22 22 15 (by norm_num) (by norm_num) (by norm_num)
      (by norm_num)).2.1⟩

/-- C5 (amended): the two tools' scaling computations coincide whenever
the short edge is below 2^31; above that r3d-tool's int-cast comparison
disables its resize branch while braw-tool still resizes. -/
theorem c5_scaling_equiv (W H : ℕ) (M : ℤ) (hW : W < 2 ^ 32) (hH : H < 2 ^ 32)
    (hS : min W H < 2 ^ 31) : brawDstDims W H M = r3dDstDims W H M := by
  have hceq := int32cast_eq_self (min W H) hS
  have hW53 : W < 2 ^ 53 := lt_trans hW (by norm_num)
  have hH53 : H < 2 ^ 53 := lt_trans hH (by norm_num)
  have hS53 : min W H < 2 ^ 53 := lt_trans hS (by norm_num)
  by_cases hb : 0 < M ∧ M.toNat < min W H
  · rw [brawDstDims_eq W H M hb,
      r3dDstDims_eq W H M ⟨hb.1, by rw [hceq]; omega⟩,
      rnd_natCast 53 W hW53, rnd_natCast 53 H hH53, rnd_natCast 53 (min W H) hS53]
  · rw [brawDstDims_else W H M hb,
      r3dDstDims_else W H M (by rw [hceq]; intro hc; exact hb ⟨hc.1, by omega⟩)]

/-- C5 counterexample: at srcW = srcH = 2^31, maxDim = 512, braw-tool
resizes to (512, 512) but r3d-tool's (int)shortEdge is negative, so it
does not resize at all. -/
theorem c5_counterexample :
    brawDstDims 2147483648 2147483648 512 = (512, 512) ∧
    r3dDstDims 2147483648 2147483648 512 = (2147483648, 2147483648) ∧
    brawDstDims 2147483648 2147483648 512 ≠ r3dDstDims 2147483648 2147483648 512 := by
  have hb : brawDstDims 2147483648 2147483648 512 = (512, 512) := by
    rw [brawDstDims_eq 2147483648 2147483648 512 (by decide)]
    have h1 : (((512 : ℤ) : ℚ) / ((min 2147483648 2147483648 : ℕ) : ℚ))
        = ((1 : ℕ) : ℚ) * (2 : ℚ) ^ (-22 : ℤ) := by
      norm_num
    rw [h1, rnd_dyadic 53 1 (-22) (by norm_num) (by norm_num)]
    have h2 : ((2147483648 : ℕ) : ℚ) * (((1 : ℕ) : ℚ) * (2 : ℚ) ^ (-22 : ℤ))
        = ((512 : ℕ) : ℚ) := by
      norm_num
    rw [h2, rnd_natCast 53 512 (by norm_num)]
    have h3 : truncQ ((512 : ℕ) : ℚ) = 512 :=
      truncQ_eval _ 512 (by norm_num) (by norm_num) (by norm_num)
    rw [h3]
    decide
  have hr : r3dDstDims 2147483648 2147483648 512 = (2147483648, 2147483648) :=
    r3dDstDims_else 2147483648 2147483648 512 (by decide)
  refine ⟨hb, hr, ?_⟩
  rw [hb, hr]
  decide

/-- C5 witness for the amended theorem, at srcW = srcH = 22, maxDim = 15. -/
theorem c5_scaling_equiv_witness :
    ((22 : ℕ) < 2 ^ 32 ∧ min 22 22 < 2 ^ 31) ∧
    brawDstDims 22 22 15 = r3dDstDims 22 22 15 :=
  ⟨⟨by norm_num, by norm_num⟩,
    c5_scaling_equiv 22 22 15 (by norm_num) (by norm_num) (by norm_num)⟩

/-! ## Audio sample conversion (r3d-tool cmd_extract_audio) -/

lemma rnd_neg (p : ℕ) (q : ℚ) : rnd p (-q) = - rnd p q := by
  unfold rnd
  by_cases h0 : q = 0
  · subst h0
    simp
  · have h0' : ¬(-q = 0) := by
      intro h
      exact h0 (by linarith [neg_eq_zero.mp h])
    rw [if_neg h0', if_neg h0, abs_neg]
    by_cases hq : q < 0
    · have h1 : ¬(-q < 0) := by linarith
      rw [if_neg h1, if_pos hq]
      ring
    · have hq' : 0 < q := lt_of_le_of_ne (not_lt.mp hq) (Ne.symm h0)
      have h1 : -q < 0 := by linarith
      rw [if_pos h1, if_neg hq]
      ring

lemma abs_rnd_le (p : ℕ) (q B : ℚ) (hB : 0 ≤ B) (h : |q| ≤ B) :
    |rnd p q| ≤ B * (1 + (2 : ℚ) ^ (-(p : ℤ))) := by
  have hu0 : (0 : ℚ) < (2 : ℚ) ^ (-(p : ℤ)) := zpow_pos (by norm_num) _
  rcases lt_trichotomy q 0 with hq | hq | hq
  · have hqn : 0 < -q := by linarith
    have h1 := rnd_le p (-q) hqn
    have h2 := le_rnd p (-q) hqn
    have habs : |q| = -q := abs_of_neg hq
    rw [habs] at h
    rw [show q = -(-q) by ring, rnd_neg, abs_neg]
    have hnn : 0 ≤ rnd p (-q) := rnd_nonneg p (-q) hqn.le
    rw [abs_of_nonneg hnn]
    calc rnd p (-q) ≤ (-q) * (1 + (2 : ℚ) ^ (-(p : ℤ))) := h1
      _ ≤ B * (1 + (2 : ℚ) ^ (-(p : ℤ))) := by
          apply mul_le_mul_of_nonneg_right h (by linarith)
  · subst hq
    simp [rnd]
    positivity
  · have h1 := rnd_le p q hq
    have hnn : 0 ≤ rnd p q := rnd_nonneg p q hq.le
    rw [abs_of_nonneg hnn]
    have habs : |q| = q := abs_of_pos hq
    rw [habs] at h
    calc rnd p q ≤ q * (1 + (2 : ℚ) ^ (-(p : ℤ))) := h1
      _ ≤ B * (1 + (2 : ℚ) ^ (-(p : ℤ))) := by
          apply mul_le_mul_of_nonneg_right h (by linarith)

lemma truncQ_range (q : ℚ) (B : ℕ) (h : |q| < (B : ℚ) + 1) :
    -(B : ℤ) ≤ truncQ q ∧ truncQ q ≤ B := by
  rcases le_or_lt 0 q with hq | hq
  · rw [truncQ_of_nonneg q hq]
    have habs : |q| = q := abs_of_nonneg hq
    rw [habs] at h
    constructor
    · have := Int.floor_nonneg.mpr hq
      omega
    · have hlt : ⌊q⌋ < (B : ℤ) + 1 := by
        rw [Int.floor_lt]
        push_cast
        linarith
      omega
  · have hne : ¬(0 : ℚ) ≤ q := not_le.mpr hq
    unfold truncQ
    rw [if_neg hne]
    have habs : |q| = -q := abs_of_neg hq
    rw [habs] at h
    have h0 : (0 : ℚ) ≤ -q := by linarith
    constructor
    · have hlt : ⌊-q⌋ < (B : ℤ) + 1 := by
        rw [Int.floor_lt]
        push_cast
        linarith
      omega
    · have := Int.floor_nonneg.mpr h0
      omega

/-- C2: the float path clamps to [-1, 1], multiplies by 32767.0 and
truncates, so every output lies in [-32767, 32767]; the integer path
returns the int16 (byte0 << 8) | byte1, the top 16 bits of the 24-bit
big-endian MSB-aligned sample b0b1b2. -/
theorem c2_pcm_conversion (s : ℚ) (b0 b1 b2 : ℕ)
    (_h0 : b0 < 256) (_h1 : b1 < 256) (h2 : b2 < 256) :
    (r3dFloatToPCM s = truncQ (rnd 24 (max (-1) (min 1 s) * 32767)) ∧
     -32767 ≤ r3dFloatToPCM s ∧ r3dFloatToPCM s ≤ 32767) ∧
    r3dIntToPCM b0 b1 = toInt16 ((b0 * 2 ^ 16 + b1 * 2 ^ 8 + b2) / 2 ^ 8) := by
  constructor
  · have hcl : clampSeq s = max (-1) (min 1 s) := by
      unfold clampSeq
      by_cases ha : 1 < s
      · rw [if_pos ha, if_neg (by norm_num), min_eq_left ha.le,
          max_eq_right (by norm_num : (-1 : ℚ) ≤ 1)]
      · rw [if_neg ha]
        push_neg at ha
        by_cases hb : s < -1
        · rw [if_pos hb, min_eq_right ha, max_eq_left hb.le]
        · rw [if_neg hb, min_eq_right ha, max_eq_right (not_lt.mp hb)]
    have hclbound : |clampSeq s| ≤ 1 := by
      rw [hcl, abs_le]
      refine ⟨le_max_left _ _, ?_⟩
      exact max_le (by norm_num) (min_le_left _ _)
    refine ⟨by rw [r3dFloatToPCM, hcl], ?_, ?_⟩
    · have habs : |clampSeq s * 32767| ≤ 32767 := by
        rw [abs_mul]
        calc |clampSeq s| * |(32767 : ℚ)| ≤ 1 * |(32767 : ℚ)| :=
              mul_le_mul_of_nonneg_right hclbound (abs_nonneg _)
          _ = 32767 := by norm_num
      have hr := abs_rnd_le 24 (clampSeq s * 32767) 32767 (by norm_num) habs
      have hlt : |rnd 24 (clampSeq s * 32767)| < (32767 : ℚ) + 1 := by
        refine lt_of_le_of_lt hr ?_
        norm_num
      exact (truncQ_range _ 32767 (by exact_mod_cast hlt)).1
    · have habs : |clampSeq s * 32767| ≤ 32767 := by
        rw [abs_mul]
        calc |clampSeq s| * |(32767 : ℚ)| ≤ 1 * |(32767 : ℚ)| :=
              mul_le_mul_of_nonneg_right hclbound (abs_nonneg _)
          _ = 32767 := by norm_num
      have hr := abs_rnd_le 24 (clampSeq s * 32767) 32767 (by norm_num) habs
      have hlt : |rnd 24 (clampSeq s * 32767)| < (32767 : ℚ) + 1 := by
        refine lt_of_le_of_lt hr ?_
        norm_num
      exact (truncQ_range _ 32767 (by exact_mod_cast hlt)).2
  · have hdiv : (b0 * 2 ^ 16 + b1 * 2 ^ 8 + b2) / 2 ^ 8 = b0 * 2 ^ 8 + b1 := by
      omega
    rw [r3dIntToPCM, hdiv]

/-- C2 witness at s = 2 (clamps to 1) and bytes (171, 66, 7). -/
theorem c2_pcm_conversion_witness :
    ((171 : ℕ) < 256 ∧ (66 : ℕ) < 256 ∧ (7 : ℕ) < 256) ∧
    ((r3dFloatToPCM 2 = truncQ (rnd 24 (max (-1) (min 1 2) * 32767)) ∧
      -32767 ≤ r3dFloatToPCM 2 ∧ r3dFloatToPCM 2 ≤ 32767) ∧
     r3dIntToPCM 171 66 = toInt16 ((171 * 2 ^ 16 + 66 * 2 ^ 8 + 7) / 2 ^ 8)) :=
  ⟨⟨by norm_num, by norm_num, by norm_num⟩,
    c2_pcm_conversion 2 171 66 7 (by norm_num) (by norm_num) (by norm_num)⟩

lemma sepB_imp_sepR (c : Char) (h : sepB c = true) : sepR c = true := by
  unfold sepB at h
  unfold sepR
  rcases Bool.or_eq_true_iff.mp h with h1 | h1 <;> simp [h1]

lemma dropWhile_sepR_of_sepB (l : List Char) :
    l.dropWhile sepR = (l.dropWhile sepB).dropWhile sepR := by
  induction l with
  | nil => rfl
  | cons c r ih =>
    by_cases hB : sepB c = true
    · have h1 : (c :: r).dropWhile sepB = r.dropWhile sepB :=
        List.dropWhile_cons_of_pos hB
      have h2 : (c :: r).dropWhile sepR = r.dropWhile sepR :=
        List.dropWhile_cons_of_pos (sepB_imp_sepR c hB)
      rw [h1, h2]
      exact ih
    · have h1 : (c :: r).dropWhile sepB = c :: r :=
        List.dropWhile_cons_of_neg (by simpa using hB)
      rw [h1]

lemma strtodBody_comma (r : List Char) : strtodBody (',' :: r) = none := rfl

lemma strtodBody_rbracket (r : List Char) : strtodBody (']' :: r) = none := rfl

lemma strtodM_nil : strtodM [] = none := rfl

lemma strtodM_rbracket (r : List Char) : strtodM (']' :: r) = none := by
  unfold strtodM
  rw [List.dropWhile_cons_of_neg (by decide)]
  exact strtodBody_rbracket r

/-- If strtod succeeds at a position, dropping an r3d separator prefix
first cannot change the outcome: any separator it would drop is either
whitespace (which strtod skips itself) or a comma (on which strtod would
have failed). -/
lemma strtodM_dropWhile_sepR (l : List Char) (v : ℚ) (rest : List Char)
    (h : strtodM l = some (v, rest)) : strtodM (l.dropWhile sepR) = some (v, rest) := by
  induction l with
  | nil => simpa using h
  | cons c r ih =>
    by_cases hR : sepR c = true
    · by_cases hS : isSpaceC c = true
      · have h2 : (c :: r).dropWhile sepR = r.dropWhile sepR :=
          List.dropWhile_cons_of_pos hR
        rw [h2]
        apply ih
        unfold strtodM at h ⊢
        have h3 : (c :: r).dropWhile isSpaceC = r.dropWhile isSpaceC :=
          List.dropWhile_cons_of_pos hS
        rwa [h3] at h
      · have hcomma : c = ',' := by
          unfold sepR at hR
          unfold isSpaceC at hS
          rcases Bool.or_eq_true_iff.mp hR with h1 | h1
          · rcases Bool.or_eq_true_iff.mp h1 with h2 | h2 <;> simp_all
          · simp_all
        subst hcomma
        exfalso
        unfold strtodM at h
        have h3 : (',' :: r).dropWhile isSpaceC = ',' :: r :=
          List.dropWhile_cons_of_neg (by simpa using hS)
        rw [h3, strtodBody_comma] at h
        exact Option.noConfusion h
    · have h2 : (c :: r).dropWhile sepR = c :: r :=
        List.dropWhile_cons_of_neg (by simpa using hR)
      rwa [h2]

/-- Core equivalence: a failure-free braw parse forces the r3d parse to
the same list, stepping both loops with the same fuel. -/
lemma loop_equiv : ∀ (fuel : ℕ) (l : List Char),
    (brawLoop fuel l).2 = true → r3dLoop fuel l = (brawLoop fuel l).1 := by
  intro fuel
  induction fuel with
  | zero => intro l _; rfl
  | succ fuel ih =>
    intro l hflag
    rcases hl1 : l.dropWhile sepB with _ | ⟨c, r⟩
    · have hb : brawLoop (fuel + 1) l = ([], true) := by
        simp only [brawLoop, hl1]
      have hr : r3dLoop (fuel + 1) l = [] := by
        simp only [r3dLoop, dropWhile_sepR_of_sepB, hl1, List.dropWhile_nil]
      rw [hb, hr]
    · by_cases hc : (c == ']') = true
      · have hceq : c = ']' := by simpa using hc
        subst hceq
        have hb : brawLoop (fuel + 1) l = ([], true) := by
          simp only [brawLoop, hl1, if_pos hc]
        have hr : r3dLoop (fuel + 1) l = [] := by
          simp only [r3dLoop, dropWhile_sepR_of_sepB, hl1,
            List.dropWhile_cons_of_neg (by decide : ¬(sepR ']' = true))]
          simp
        rw [hb, hr]
      · rcases hst : strtodM (c :: r) with _ | ⟨v, rest⟩
        · have hb : brawLoop (fuel + 1) l = ((brawLoop fuel r).1, false) := by
            simp only [brawLoop, hl1, if_neg hc, hst]
          rw [hb] at hflag
          exact absurd hflag (by simp)
        · have hb : brawLoop (fuel + 1) l
              = (v :: (brawLoop fuel rest).1, (brawLoop fuel rest).2) := by
            simp only [brawLoop, hl1, if_neg hc, hst]
          rw [hb] at hflag ⊢
          have hflag2 : (brawLoop fuel rest).2 = true := hflag
          have hst2 : strtodM ((c :: r).dropWhile sepR) = some (v, rest) :=
            strtodM_dropWhile_sepR (c :: r) v rest hst
          rcases hl2 : (c :: r).dropWhile sepR with _ | ⟨c2, r2⟩
          · rw [hl2, strtodM_nil] at hst2
            exact absurd hst2 (by simp)
          · rw [hl2] at hst2
            by_cases hc2 : (c2 == ']') = true
            · have hceq2 : c2 = ']' := by simpa using hc2
              subst hceq2
              rw [strtodM_rbracket] at hst2
              exact absurd hst2 (by simp)
            · have hr : r3dLoop (fuel + 1) l = v :: r3dLoop fuel rest := by
                simp only [r3dLoop, dropWhile_sepR_of_sepB, hl1, hl2, if_neg hc2, hst2]
              rw [hr, ih rest hflag2]

/-- C9 (amended): whenever braw-tool's parser never takes its
skip-one-character recovery branch, the two parsers return the same
list; in general r3d-tool stops at the first unparseable position while
braw-tool skips a character and retries, so the lists can differ. -/
theorem c9_parsers_agree (s : String) (h : (brawParseTimesF s).2 = true) :
    r3dParseTimes s = brawParseTimes s :=
  loop_equiv ((jsonAfterBracket s.toList).length + 1) (jsonAfterBracket s.toList) h

/-- C9 counterexample: on "[a1]" braw-tool's parser skips the 'a' and
parses [1], while r3d-tool's parser stops at the 'a' and returns []. -/
theorem c9_counterexample :
    brawParseTimes ("[a1]") = [1] ∧ r3dParseTimes ("[a1]") = [] ∧
    brawParseTimes ("[a1]") ≠ r3dParseTimes ("[a1]") := by
  refine ⟨by decide, by decide, by decide⟩

/-- C9 witness on the well-formed input "[1, 2]". -/
theorem c9_parsers_agree_witness :
    (brawParseTimesF ("[1, 2]")).2 = true ∧
    r3dParseTimes ("[1, 2]") = brawParseTimes ("[1, 2]") :=
  ⟨by decide, c9_parsers_agree ("[1, 2]") (by decide)⟩

lemma intercalate_cons_chars (sep : List Char) (x : List Char) (l : List (List Char)) :
    List.intercalate sep (x :: l) = x ++ (l.map (fun y => sep ++ y)).flatten := by
  induction l generalizing x with
  | nil => simp [List.intercalate]
  | cons y l ih =>
    rw [List.intercalate, List.intersperse_cons_cons, List.flatten_cons, List.flatten_cons]
    have hy := ih y
    rw [List.intercalate] at hy
    rw [hy, List.map_cons, List.flatten_cons]
    simp [List.append_assoc]

lemma framesLoopOut_shift (exitFor : ℕ → ℕ) (dir : List Char) :
    ∀ (ts : List ℚ) (j : ℕ),
      framesLoopOut exitFor dir ts (j + 1) =
        ((List.range ts.length).map
          (fun k => (",".toList) ++ frameItem exitFor dir (j + 1 + k))).flatten := by
  intro ts
  induction ts with
  | nil => intro j; rfl
  | cons t ts ih =>
    intro j
    rw [framesLoopOut, if_pos (Nat.succ_pos j), ih (j + 1),
      List.length_cons, List.range_succ_eq_map, List.map_cons, List.map_map,
      List.flatten_cons]
    congr 1
    congr 1
    apply List.map_congr_left
    intro k _
    simp only [Function.comp, Nat.succ_eq_add_one]
    have harg : j + 1 + 1 + k = j + 1 + (k + 1) := by omega
    rw [harg]

lemma framesLoopOut_eq_intercalate (exitFor : ℕ → ℕ) (dir : List Char) (ts : List ℚ) :
    framesLoopOut exitFor dir ts 0 =
      List.intercalate (",".toList) ((List.range ts.length).map (frameItem exitFor dir)) := by
  rcases ts with _ | ⟨t, ts⟩
  · rfl
  · rw [framesLoopOut, if_neg (by omega), framesLoopOut_shift exitFor dir ts 0,
      List.length_cons, List.range_succ_eq_map, List.map_cons, List.map_map,
      intercalate_cons_chars, List.map_map]
    congr 1
    congr 1
    apply List.map_congr_left
    intro k _
    simp only [Function.comp, Nat.succ_eq_add_one]
    have harg : 1 + k = k + 1 := by omega
    rw [harg]

/-- C6 (amended): for either tool, if the timestamps argument parses to
an empty list the tool prints nothing and exits 1; if it parses to a
non-empty list of n times and the clip opens (and, for braw, the SDK
factory and codec are created), the tool prints exactly the claimed
n-element JSON array — element i is the quoted "<outputDir>/frame_XXXX.jpg"
path when extraction i succeeded and null when it failed — and exits 0.
When opening the clip fails, nothing is printed and the exit code is 1. -/
theorem c6_extract_frames_output (bsdk : BrawFramesSdk) (rsdk : R3dFramesSdk)
    (t : String) (dir : List Char)
    (hbf : bsdk.factoryOk = true) (hbc : bsdk.codecOk = true) (hbo : bsdk.openOk = true)
    (hrl : rsdk.loadOk = true) :
    (brawParseTimes t = [] → cmdExtractFramesBraw bsdk t dir = (1, [])) ∧
    (brawParseTimes t ≠ [] →
      cmdExtractFramesBraw bsdk t dir =
        (0, expectedFramesJson (fun i => extractOneFrameExit (bsdk.attempts i)) dir
              (brawParseTimes t).length)) ∧
    (r3dParseTimes t = [] → cmdExtractFramesR3d rsdk t dir = (1, [])) ∧
    (r3dParseTimes t ≠ [] →
      cmdExtractFramesR3d rsdk t dir =
        (0, expectedFramesJson (fun i => decodeFrameExit (rsdk.attempts i)) dir
              (r3dParseTimes t).length)) := by
  refine ⟨?_, ?_, ?_, ?_⟩
  · intro he
    unfold cmdExtractFramesBraw
    rw [if_pos he]
  · intro hne
    unfold cmdExtractFramesBraw
    rw [if_neg hne, hbf, hbc, hbo]
    simp only [Bool.not_true, if_neg (by simp : ¬(false = true))]
    unfold expectedFramesJson
    rw [framesLoopOut_eq_intercalate]
  · intro he
    unfold cmdExtractFramesR3d
    rw [if_pos he]
  · intro hne
    unfold cmdExtractFramesR3d
    rw [if_neg hne, hrl]
    simp only [Bool.not_true, if_neg (by simp : ¬(false = true))]
    unfold expectedFramesJson
    rw [framesLoopOut_eq_intercalate]

lemma r3dAudioLoop_snd (sdk : R3dAudioSdk) :
    ∀ (fuel decoded k : ℕ),
      (r3dAudioLoop sdk fuel decoded k).2 = (r3dAudioLoop sdk fuel decoded k).1 % 2 ^ 32 := by
  intro fuel
  induction fuel with
  | zero => intro d k; rfl
  | succ fuel ih =>
    intro d k
    rw [r3dAudioLoop]
    by_cases hd : d < sdk.totalSamples
    · rw [if_pos hd]
      rcases hdec : sdk.decodes k with ⟨ok, got⟩
      dsimp only
      by_cases hok : (!ok || got == 0) = true
      · rw [if_pos hok]
        rfl
      · rw [if_neg hok]
        dsimp only
        rw [ih (d + got) (k + 1)]
        exact (Nat.add_mod _ _ _).symm
    · rw [if_neg hd]
      rfl

/-- C7: for every clip either tool can open, probe prints the SDK's
width, height, fps and frameCount, with duration = frameCount / fps when
fps > 0 and 0 otherwise, and exits 0. -/
theorem c7_probe_output (bsdk : BrawProbeSdk) (rsdk : R3dProbeSdk)
    (hbf : bsdk.factoryOk = true) (hbc : bsdk.codecOk = true) (hbo : bsdk.openOk = true)
    (hrl : rsdk.loadOk = true) :
    ((cmdProbeBraw bsdk).1 = 0 ∧
     ∃ o, (cmdProbeBraw bsdk).2 = some o ∧ o.width = bsdk.width ∧
       o.height = bsdk.height ∧ o.fps = bsdk.fps ∧ o.frameCount = bsdk.frameCount ∧
       o.duration = (if 0 < bsdk.fps then (bsdk.frameCount : ℚ) / bsdk.fps else 0)) ∧
    ((cmdProbeR3d rsdk).1 = 0 ∧
     ∃ o, (cmdProbeR3d rsdk).2 = some o ∧ o.width = rsdk.width ∧
       o.height = rsdk.height ∧ o.fps = rsdk.fps ∧ o.frameCount = rsdk.frameCount ∧
       o.duration = (if 0 < rsdk.fps then (rsdk.frameCount : ℚ) / rsdk.fps else 0)) := by
  unfold cmdProbeBraw cmdProbeR3d
  rw [hbf, hbc, hbo, hrl]
  exact ⟨⟨rfl, ⟨_, rfl, rfl, rfl, rfl, rfl, rfl⟩⟩, ⟨rfl, ⟨_, rfl, rfl, rfl, rfl, rfl, rfl⟩⟩⟩

/-- C7 witness. -/
theorem c7_probe_output_witness :
    (c7BrawSdk.factoryOk = true ∧ c7BrawSdk.codecOk = true ∧ c7BrawSdk.openOk = true ∧
     c7R3dSdk.loadOk = true) ∧
    (((cmdProbeBraw c7BrawSdk).1 = 0 ∧
      ∃ o, (cmdProbeBraw c7BrawSdk).2 = some o ∧ o.width = c7BrawSdk.width ∧
        o.height = c7BrawSdk.height ∧ o.fps = c7BrawSdk.fps ∧
        o.frameCount = c7BrawSdk.frameCount ∧
        o.duration = (if 0 < c7BrawSdk.fps then (c7BrawSdk.frameCount : ℚ) / c7BrawSdk.fps
          else 0)) ∧
     ((cmdProbeR3d c7R3dSdk).1 = 0 ∧
      ∃ o, (cmdProbeR3d c7R3dSdk).2 = some o ∧ o.width = c7R3dSdk.width ∧
        o.height = c7R3dSdk.height ∧ o.fps = c7R3dSdk.fps ∧
        o.frameCount = c7R3dSdk.frameCount ∧
        o.duration = (if 0 < c7R3dSdk.fps then (c7R3dSdk.frameCount : ℚ) / c7R3dSdk.fps
          else 0))) :=
  ⟨⟨rfl, rfl, rfl, rfl⟩, c7_probe_output c7BrawSdk c7R3dSdk rfl rfl rfl rfl⟩

/-- C8: with a positive frame count, the index handed to the decode call
is strictly below the frame count, and an out-of-range floor(timeSec*fps)
is clamped to frameCount - 1.  For braw the product is assumed
nonnegative (the uint64 cast of a negative double is undefined in C); r3d
maps nonpositive times or fps to index 0 explicitly. -/
theorem c8_frame_index_clamped (fps timeSec : ℚ) (n : ℕ) (hn : 0 < n)
    (ht : 0 ≤ timeSec * fps) :
    (brawFrameIndex fps timeSec n < n ∧
     (n ≤ (⌊timeSec * fps⌋).toNat → brawFrameIndex fps timeSec n = n - 1)) ∧
    (r3dFrameIndex fps timeSec n < n ∧
     (0 < fps → 0 < timeSec → n ≤ (⌊timeSec * fps⌋).toNat →
       r3dFrameIndex fps timeSec n = n - 1)) := by
  have htr : truncQ (timeSec * fps) = ⌊timeSec * fps⌋ := truncQ_of_nonneg _ ht
  constructor
  · unfold brawFrameIndex
    rw [htr]
    constructor
    · by_cases hcl : 0 < n ∧ n ≤ (⌊timeSec * fps⌋).toNat
      · rw [if_pos hcl]
        omega
      · rw [if_neg hcl]
        omega
    · intro hge
      rw [if_pos ⟨hn, hge⟩]
  · unfold r3dFrameIndex
    rw [htr]
    constructor
    · by_cases hpos : 0 < fps ∧ 0 < timeSec
      · rw [if_pos hpos]
        by_cases hcl : n ≤ (⌊timeSec * fps⌋).toNat ∧ 0 < n
        · rw [if_pos hcl]
          omega
        · rw [if_neg hcl]
          omega
      · rw [if_neg hpos]
        rw [if_neg (by omega)]
        omega
    · intro hf ht0 hge
      have hp : 0 < fps ∧ 0 < timeSec := ⟨hf, ht0⟩
      rw [if_pos hp, if_pos ⟨hge, hn⟩]

/-- C8 witness at fps = 24, timeSec = 100, frameCount = 10 (the floor is
2400, clamped to 9). -/
theorem c8_frame_index_clamped_witness :
    ((0 : ℕ) < 10 ∧ (0 : ℚ) ≤ 100 * 24) ∧
    ((brawFrameIndex 24 100 10 < 10 ∧
      (10 ≤ (⌊(100 : ℚ) * 24⌋).toNat → brawFrameIndex 24 100 10 = 10 - 1)) ∧
     (r3dFrameIndex 24 100 10 < 10 ∧
      ((0 : ℚ) < 24 → (0 : ℚ) < 100 → 10 ≤ (⌊(100 : ℚ) * 24⌋).toNat →
        r3dFrameIndex 24 100 10 = 10 - 1))) :=
  ⟨⟨by norm_num, by norm_num⟩,
    c8_frame_index_clamped 24 100 10 (by norm_num) (by norm_num)⟩

/-- C6 witness: on input "[1, 2]" both tools print the two-element array
(path for frame 0, null for frame 1) and exit 0. -/
theorem c6_extract_frames_output_witness :
    (c6OkSdkB.factoryOk = true ∧ c6OkSdkB.codecOk = true ∧ c6OkSdkB.openOk = true ∧
     c6OkSdkR.loadOk = true ∧ brawParseTimes "[1, 2]" ≠ [] ∧ r3dParseTimes "[1, 2]" ≠ []) ∧
    cmdExtractFramesBraw c6OkSdkB "[1, 2]" ("out".toList) =
      (0, expectedFramesJson (fun i => extractOneFrameExit (c6OkSdkB.attempts i))
            ("out".toList) (brawParseTimes "[1, 2]").length) ∧
    cmdExtractFramesR3d c6OkSdkR "[1, 2]" ("out".toList) =
      (0, expectedFramesJson (fun i => decodeFrameExit (c6OkSdkR.attempts i))
            ("out".toList) (r3dParseTimes "[1, 2]").length) :=
  ⟨⟨rfl, rfl, rfl, rfl, by decide, by decide⟩,
    (c6_extract_frames_output c6OkSdkB c6OkSdkR "[1, 2]" ("out".toList)
      rfl rfl rfl rfl).2.1 (by decide),
    (c6_extract_frames_output c6OkSdkB c6OkSdkR "[1, 2]" ("out".toList)
      rfl rfl rfl rfl).2.2.2 (by decide)⟩

/-- C6 counterexample: "[5]" parses to a non-empty (one-element) list,
yet when OpenClip fails braw-tool prints nothing and exits 1 — not the
one-element JSON array the claim promises for every non-empty parse
(neither with a path element nor with a null element). -/
theorem c6_counterexample :
    brawParseTimes "[5]" ≠ [] ∧
    cmdExtractFramesBraw c6FailSdkB "[5]" ("out".toList) = (1, []) ∧
    ([] : List Char) ≠ expectedFramesJson (fun _ => 0) ("out".toList) 1 ∧
    ([] : List Char) ≠ expectedFramesJson (fun _ => 1) ("out".toList) 1 := by
  exact ⟨by decide, by decide, by decide, by decide⟩

lemma brawAudio_exit_zero_iff (sdk : BrawAudioSdk) :
    (cmdExtractAudioBraw sdk).1 = 0 ↔
      sdk.factoryOk = true ∧ sdk.codecOk = true ∧ sdk.openOk = true ∧
      sdk.audioOk = true ∧ ¬(sdk.sampleCount = 0 ∨ sdk.channelCount = 0) ∧
      sdk.fopenOk = true := by
  unfold cmdExtractAudioBraw
  rcases h1 : sdk.factoryOk with _ | _ <;>
    rcases h2 : sdk.codecOk with _ | _ <;>
      rcases h3 : sdk.openOk with _ | _ <;>
        rcases h4 : sdk.audioOk with _ | _ <;>
          rcases h5 : sdk.fopenOk with _ | _ <;>
            by_cases h6 : sdk.sampleCount = 0 ∨ sdk.channelCount = 0 <;>
              simp [h6]

lemma r3dAudio_exit_zero_iff (sdk : R3dAudioSdk) :
    (cmdExtractAudioR3d sdk).1 = 0 ↔
      sdk.loadOk = true ∧ sdk.channels ≠ 0 ∧ sdk.fopenOk = true ∧
      sdk.allocOk = true := by
  unfold cmdExtractAudioR3d
  rcases h1 : sdk.loadOk with _ | _ <;>
    rcases h2 : sdk.fopenOk with _ | _ <;>
      rcases h3 : sdk.allocOk with _ | _ <;>
        by_cases h4 : sdk.channels = 0 <;>
          simp [h4]

/-- C4 (amended): the exit code of every subcommand of both tools is 0
exactly when the argument/metadata checks and the setup SDK calls
succeed.  SDK failures inside the per-frame extraction loop and inside
the audio read/decode loop do NOT reach the exit code: the loop-level
oracles (attempts, reads, decodes) are absent from every right-hand
side. -/
theorem c4_exit_codes (bp : BrawProbeSdk) (rp : R3dProbeSdk) (bf : BrawFrameSdk)
    (rv : R3dFrameSdk) (bfs : BrawFramesSdk) (rfs : R3dFramesSdk)
    (ba : BrawAudioSdk) (ra : R3dAudioSdk) (t : String) (dir : List Char) :
    ((cmdProbeBraw bp).1 = 0 ↔
      bp.factoryOk = true ∧ bp.codecOk = true ∧ bp.openOk = true) ∧
    ((cmdProbeR3d rp).1 = 0 ↔ rp.loadOk = true) ∧
    (cmdExtractFrameBraw bf = 0 ↔ bf.factoryOk = true ∧ bf.codecOk = true ∧
      bf.openOk = true ∧ extractOneFrameExit bf.attempt = 0) ∧
    (cmdExtractFrameR3d rv = 0 ↔ rv.loadOk = true ∧ decodeFrameExit rv.attempt = 0) ∧
    ((cmdExtractFramesBraw bfs t dir).1 = 0 ↔ brawParseTimes t ≠ [] ∧
      bfs.factoryOk = true ∧ bfs.codecOk = true ∧ bfs.openOk = true) ∧
    ((cmdExtractFramesR3d rfs t dir).1 = 0 ↔ r3dParseTimes t ≠ [] ∧
      rfs.loadOk = true) ∧
    ((cmdExtractAudioBraw ba).1 = 0 ↔ ba.factoryOk = true ∧ ba.codecOk = true ∧
      ba.openOk = true ∧ ba.audioOk = true ∧
      ¬(ba.sampleCount = 0 ∨ ba.channelCount = 0) ∧ ba.fopenOk = true) ∧
    ((cmdExtractAudioR3d ra).1 = 0 ↔ ra.loadOk = true ∧ ra.channels ≠ 0 ∧
      ra.fopenOk = true ∧ ra.allocOk = true) := by
  refine ⟨?_, ?_, ?_, ?_, ?_, ?_, brawAudio_exit_zero_iff ba, r3dAudio_exit_zero_iff ra⟩
  · unfold cmdProbeBraw
    rcases h1 : bp.factoryOk with _ | _ <;> rcases h2 : bp.codecOk with _ | _ <;>
      rcases h3 : bp.openOk with _ | _ <;> simp
  · unfold cmdProbeR3d
    rcases h1 : rp.loadOk with _ | _ <;> simp
  · unfold cmdExtractFrameBraw
    rcases h1 : bf.factoryOk with _ | _ <;> rcases h2 : bf.codecOk with _ | _ <;>
      rcases h3 : bf.openOk with _ | _ <;> simp
  · unfold cmdExtractFrameR3d
    rcases h1 : rv.loadOk with _ | _ <;> simp
  · unfold cmdExtractFramesBraw
    by_cases he : brawParseTimes t = [] <;>
      rcases h1 : bfs.factoryOk with _ | _ <;> rcases h2 : bfs.codecOk with _ | _ <;>
        rcases h3 : bfs.openOk with _ | _ <;> simp [he]
  · unfold cmdExtractFramesR3d
    by_cases he : r3dParseTimes t = [] <;>
      rcases h1 : rfs.loadOk with _ | _ <;> simp [he]

/-- C4 counterexample: an SDK call made during the run fails
(DecodeVideoFrame for r3d extract-frames, the second GetAudioSamples for
braw extract-audio — the latter is really reached, since the loop writes
the 2 bytes of the first read), yet the process exits 0, contradicting
the claim that any SDK failure yields exit code 1. -/
theorem c4_counterexample :
    (c4FailFramesSdkR.attempts 0).decodeOk = false ∧
    (cmdExtractFramesR3d c4FailFramesSdkR "[5]" ("out".toList)).1 = 0 ∧
    (c4FailAudioSdkB.reads 1).1 = false ∧
    (cmdExtractAudioBraw c4FailAudioSdkB).1 = 0 ∧
    brawAudioLoop c4FailAudioSdkB c4FailAudioSdkB.sampleCount 0 0 = 2 := by
  exact ⟨rfl, by decide, rfl, by decide, by decide⟩

lemma cmdExtractAudioBraw_success (sdk : BrawAudioSdk)
    (h1 : sdk.factoryOk = true) (h2 : sdk.codecOk = true) (h3 : sdk.openOk = true)
    (h4 : sdk.audioOk = true) (h5 : ¬(sdk.sampleCount = 0 ∨ sdk.channelCount = 0))
    (h6 : sdk.fopenOk = true) :
    cmdExtractAudioBraw sdk =
      (0, some
        { wavContentSize :=
            (36 + sdk.sampleCount * sdk.channelCount % 2 ^ 64 * sdk.bitDepth % 2 ^ 64 / 8
              % 2 ^ 32) % 2 ^ 32,
          fmtChunkSize := 16,
          audioFormat := 1,
          channelCount := sdk.channelCount % 2 ^ 16,
          sampleRate := sdk.sampleRate,
          bytesPerSecond := sdk.sampleRate * sdk.channelCount % 2 ^ 32 * sdk.bitDepth
            % 2 ^ 32 / 8,
          blockAlign := sdk.channelCount * sdk.bitDepth % 2 ^ 32 / 8 % 2 ^ 16,
          bitDepth := sdk.bitDepth % 2 ^ 16,
          dataBytes := sdk.sampleCount * sdk.channelCount % 2 ^ 64 * sdk.bitDepth
            % 2 ^ 64 / 8 % 2 ^ 32 },
        brawAudioLoop sdk sdk.sampleCount 0 0) := by
  unfold cmdExtractAudioBraw
  rw [h1, h2, h3, h4, h6, if_neg h5]
  rfl

lemma cmdExtractAudioR3d_success (sdk : R3dAudioSdk)
    (h1 : sdk.loadOk = true) (h2 : ¬sdk.channels = 0) (h3 : sdk.fopenOk = true)
    (h4 : sdk.allocOk = true) :
    cmdExtractAudioR3d sdk =
      (0, some
        { fileSize := (36 + (r3dAudioLoop sdk sdk.totalSamples 0 0).2) % 2 ^ 32,
          fmtSize := 16,
          audioFmt := 1,
          channels := sdk.channels % 2 ^ 16,
          sampleRate := if sdk.srMeta = 0 then 48000 else sdk.srMeta,
          byteRate := (if sdk.srMeta = 0 then 48000 else sdk.srMeta)
            * (sdk.channels * 2 % 2 ^ 16) % 2 ^ 32,
          blockAlign := sdk.channels * 2 % 2 ^ 16,
          bitsPerSamp := 16,
          dataSize := (r3dAudioLoop sdk sdk.totalSamples 0 0).2 },
        (r3dAudioLoop sdk sdk.totalSamples 0 0).1) := by
  unfold cmdExtractAudioR3d
  rw [h1, h3, h4, if_neg h2]
  rfl

/-- C3 (amended): for every extract-audio run that exits 0, under WAV
range conditions (channelCount*bitDepth/8 fits blockAlign's uint16, the
byte rates and sizes fit uint32, 8 divides channelCount*bitDepth): both
tools write a header with fmtChunkSize 16, PCM format 1,
blockAlign = channelCount*bitDepth/8, bytesPerSecond =
sampleRate*blockAlign and wavContentSize = 36 + dataBytes.  r3d-tool's
dataSize field equals the payload bytes actually written (the header is
rewritten after the loop); braw-tool's dataBytes field is only the
up-front prediction sampleCount*channelCount*bitDepth/8, which the
payload can undershoot. -/
theorem c3_wav_header (bsdk : BrawAudioSdk) (rsdk : R3dAudioSdk)
    (hbd : 0 < bsdk.bitDepth)
    (hcb : bsdk.channelCount * bsdk.bitDepth < 2 ^ 16 * 8)
    (hch : bsdk.channelCount < 2 ^ 16) (hbt : bsdk.bitDepth < 2 ^ 16)
    (hsb : bsdk.sampleRate * bsdk.channelCount * bsdk.bitDepth < 2 ^ 32)
    (hdb : bsdk.sampleCount * bsdk.channelCount * bsdk.bitDepth < 2 ^ 32)
    (hdv : 8 ∣ bsdk.channelCount * bsdk.bitDepth)
    (hrch : rsdk.channels * 2 < 2 ^ 16)
    (hrbr : (if rsdk.srMeta = 0 then 48000 else rsdk.srMeta) * (rsdk.channels * 2) < 2 ^ 32)
    (hrpay : (r3dAudioLoop rsdk rsdk.totalSamples 0 0).1 + 36 < 2 ^ 32) :
    ((cmdExtractAudioR3d rsdk).1 = 0 →
      ∃ hdr, (cmdExtractAudioR3d rsdk).2.1 = some hdr ∧
        hdr.fmtSize = 16 ∧ hdr.audioFmt = 1 ∧ hdr.channels = rsdk.channels ∧
        hdr.bitsPerSamp = 16 ∧
        hdr.blockAlign = rsdk.channels * 16 / 8 ∧
        hdr.byteRate = hdr.sampleRate * hdr.blockAlign ∧
        hdr.fileSize = 36 + hdr.dataSize ∧
        hdr.dataSize = (cmdExtractAudioR3d rsdk).2.2) ∧
    ((cmdExtractAudioBraw bsdk).1 = 0 →
      ∃ hdr, (cmdExtractAudioBraw bsdk).2.1 = some hdr ∧
        hdr.fmtChunkSize = 16 ∧ hdr.audioFormat = 1 ∧
        hdr.channelCount = bsdk.channelCount ∧ hdr.sampleRate = bsdk.sampleRate ∧
        hdr.bitDepth = bsdk.bitDepth ∧
        hdr.blockAlign = bsdk.channelCount * bsdk.bitDepth / 8 ∧
        hdr.bytesPerSecond = hdr.sampleRate * hdr.blockAlign ∧
        hdr.wavContentSize = 36 + hdr.dataBytes ∧
        hdr.dataBytes = bsdk.sampleCount * bsdk.channelCount * bsdk.bitDepth / 8) := by
  constructor
  · intro h0
    obtain ⟨h1, h2, h3, h4⟩ := (r3dAudio_exit_zero_iff rsdk).1 h0
    rw [cmdExtractAudioR3d_success rsdk h1 h2 h3 h4]
    have hs := r3dAudioLoop_snd rsdk rsdk.totalSamples 0 0
    have e1 : rsdk.channels * 2 % 2 ^ 16 = rsdk.channels * 2 := Nat.mod_eq_of_lt hrch
    refine ⟨_, rfl, rfl, rfl, ?_, rfl, ?_, ?_, ?_, ?_⟩
    · show rsdk.channels % 2 ^ 16 = rsdk.channels
      omega
    · show rsdk.channels * 2 % 2 ^ 16 = rsdk.channels * 16 / 8
      omega
    · show (if rsdk.srMeta = 0 then 48000 else rsdk.srMeta)
          * (rsdk.channels * 2 % 2 ^ 16) % 2 ^ 32 =
        (if rsdk.srMeta = 0 then 48000 else rsdk.srMeta) * (rsdk.channels * 2 % 2 ^ 16)
      rw [e1]
      exact Nat.mod_eq_of_lt hrbr
    · show (36 + (r3dAudioLoop rsdk rsdk.totalSamples 0 0).2) % 2 ^ 32 =
        36 + (r3dAudioLoop rsdk rsdk.totalSamples 0 0).2
      omega
    · show (r3dAudioLoop rsdk rsdk.totalSamples 0 0).2 =
        (r3dAudioLoop rsdk rsdk.totalSamples 0 0).1
      omega
  · intro h0
    obtain ⟨h1, h2, h3, h4, h5, h6⟩ := (brawAudio_exit_zero_iff bsdk).1 h0
    rw [cmdExtractAudioBraw_success bsdk h1 h2 h3 h4 h5 h6]
    have hle1 : bsdk.sampleCount * bsdk.channelCount ≤
        bsdk.sampleCount * bsdk.channelCount * bsdk.bitDepth :=
      Nat.le_mul_of_pos_right _ hbd
    have hle2 : bsdk.sampleRate * bsdk.channelCount ≤
        bsdk.sampleRate * bsdk.channelCount * bsdk.bitDepth :=
      Nat.le_mul_of_pos_right _ hbd
    have e1 : bsdk.sampleCount * bsdk.channelCount % 2 ^ 64 =
        bsdk.sampleCount * bsdk.channelCount := Nat.mod_eq_of_lt (by omega)
    have e2 : bsdk.sampleCount * bsdk.channelCount * bsdk.bitDepth % 2 ^ 64 =
        bsdk.sampleCount * bsdk.channelCount * bsdk.bitDepth := Nat.mod_eq_of_lt (by omega)
    have f1 : bsdk.sampleRate * bsdk.channelCount % 2 ^ 32 =
        bsdk.sampleRate * bsdk.channelCount := Nat.mod_eq_of_lt (by omega)
    have f2 : bsdk.sampleRate * bsdk.channelCount * bsdk.bitDepth % 2 ^ 32 =
        bsdk.sampleRate * bsdk.channelCount * bsdk.bitDepth := Nat.mod_eq_of_lt (by omega)
    have g1 : bsdk.channelCount * bsdk.bitDepth % 2 ^ 32 =
        bsdk.channelCount * bsdk.bitDepth := Nat.mod_eq_of_lt (by omega)
    refine ⟨_, rfl, rfl, rfl, ?_, rfl, ?_, ?_, ?_, ?_, ?_⟩
    · show bsdk.channelCount % 2 ^ 16 = bsdk.channelCount
      omega
    · show bsdk.bitDepth % 2 ^ 16 = bsdk.bitDepth
      omega
    · show bsdk.channelCount * bsdk.bitDepth % 2 ^ 32 / 8 % 2 ^ 16 =
        bsdk.channelCount * bsdk.bitDepth / 8
      rw [g1]
      have : bsdk.channelCount * bsdk.bitDepth / 8 < 2 ^ 16 := by omega
      omega
    · show bsdk.sampleRate * bsdk.channelCount % 2 ^ 32 * bsdk.bitDepth % 2 ^ 32 / 8 =
        bsdk.sampleRate * (bsdk.channelCount * bsdk.bitDepth % 2 ^ 32 / 8 % 2 ^ 16)
      rw [f1, f2, g1]
      have hba : bsdk.channelCount * bsdk.bitDepth / 8 % 2 ^ 16 =
          bsdk.channelCount * bsdk.bitDepth / 8 := by omega
      rw [hba, mul_assoc, Nat.mul_div_assoc _ hdv]
    · show (36 + bsdk.sampleCount * bsdk.channelCount % 2 ^ 64 * bsdk.bitDepth % 2 ^ 64
          / 8 % 2 ^ 32) % 2 ^ 32 =
        36 + bsdk.sampleCount * bsdk.channelCount % 2 ^ 64 * bsdk.bitDepth % 2 ^ 64
          / 8 % 2 ^ 32
      rw [e1, e2]
      omega
    · show bsdk.sampleCount * bsdk.channelCount % 2 ^ 64 * bsdk.bitDepth % 2 ^ 64
          / 8 % 2 ^ 32 =
        bsdk.sampleCount * bsdk.channelCount * bsdk.bitDepth / 8
      rw [e1, e2]
      omega

/-- C3 counterexample: braw-tool exits 0 but its header's dataBytes
field (4, the prediction sampleCount*channelCount*bitDepth/8) differs
from the 2 payload bytes actually written after the header, because the
header is written up front and never updated when the GetAudioSamples
loop stops early. -/
theorem c3_counterexample :
    (cmdExtractAudioBraw c3BadSdk).1 = 0 ∧
    (cmdExtractAudioBraw c3BadSdk).2.1 =
      some { wavContentSize := 40, fmtChunkSize := 16, audioFormat := 1,
             channelCount := 1, sampleRate := 48000, bytesPerSecond := 96000,
             blockAlign := 2, bitDepth := 16, dataBytes := 4 } ∧
    (cmdExtractAudioBraw c3BadSdk).2.2 = 2 ∧ (4 : ℕ) ≠ 2 := by
  refine ⟨by decide, ?_, by decide, by decide⟩
  rfl

/-- C3 witness. -/
theorem c3_wav_header_witness :
    (0 < c3GoodSdkB.bitDepth ∧
     c3GoodSdkB.channelCount * c3GoodSdkB.bitDepth < 2 ^ 16 * 8 ∧
     c3GoodSdkB.channelCount < 2 ^ 16 ∧ c3GoodSdkB.bitDepth < 2 ^ 16 ∧
     c3GoodSdkB.sampleRate * c3GoodSdkB.channelCount * c3GoodSdkB.bitDepth < 2 ^ 32 ∧
     c3GoodSdkB.sampleCount * c3GoodSdkB.channelCount * c3GoodSdkB.bitDepth < 2 ^ 32 ∧
     8 ∣ c3GoodSdkB.channelCount * c3GoodSdkB.bitDepth ∧
     c3GoodSdkR.channels * 2 < 2 ^ 16 ∧
     (if c3GoodSdkR.srMeta = 0 then 48000 else c3GoodSdkR.srMeta)
       * (c3GoodSdkR.channels * 2) < 2 ^ 32 ∧
     (r3dAudioLoop c3GoodSdkR c3GoodSdkR.totalSamples 0 0).1 + 36 < 2 ^ 32) ∧
    (((cmdExtractAudioR3d c3GoodSdkR).1 = 0 →
      ∃ hdr, (cmdExtractAudioR3d c3GoodSdkR).2.1 = some hdr ∧
        hdr.fmtSize = 16 ∧ hdr.audioFmt = 1 ∧ hdr.channels = c3GoodSdkR.channels ∧
        hdr.bitsPerSamp = 16 ∧
        hdr.blockAlign = c3GoodSdkR.channels * 16 / 8 ∧
        hdr.byteRate = hdr.sampleRate * hdr.blockAlign ∧
        hdr.fileSize = 36 + hdr.dataSize ∧
        hdr.dataSize = (cmdExtractAudioR3d c3GoodSdkR).2.2) ∧
     ((cmdExtractAudioBraw c3GoodSdkB).1 = 0 →
      ∃ hdr, (cmdExtractAudioBraw c3GoodSdkB).2.1 = some hdr ∧
        hdr.fmtChunkSize = 16 ∧ hdr.audioFormat = 1 ∧
        hdr.channelCount = c3GoodSdkB.channelCount ∧
        hdr.sampleRate = c3GoodSdkB.sampleRate ∧
        hdr.bitDepth = c3GoodSdkB.bitDepth ∧
        hdr.blockAlign = c3GoodSdkB.channelCount * c3GoodSdkB.bitDepth / 8 ∧
        hdr.bytesPerSecond = hdr.sampleRate * hdr.blockAlign ∧
        hdr.wavContentSize = 36 + hdr.dataBytes ∧
        hdr.dataBytes = c3GoodSdkB.sampleCount * c3GoodSdkB.channelCount
          * c3GoodSdkB.bitDepth / 8)) :=
  ⟨⟨by decide, by decide, by decide, by decide, by decide, by decide, by decide,
    by decide, by decide, by decide⟩,
   c3_wav_header c3GoodSdkB c3GoodSdkR (by decide) (by decide) (by decide) (by decide)
     (by decide) (by decide) (by decide) (by decide) (by decide) (by decide)⟩

end FinDIT
